import Mathlib

/-! # do-template-api: request handlers, route table, server lifecycle and configuration

A shallow embedding of `pkg/http/user_handler.go`, `pkg/http/server.go`,
`pkg/cli/cli.go` and `pkg/config/config.go`.

Handlers are modelled as pure functions from a request and a repository (an
interface value, given as a record of state-passing functions) to an `Outcome`
holding the HTTP response written, the repository calls made, the log entries
emitted and the repository state afterwards.
-/

namespace DoTemplateApi

deriving instance DecidableEq for Except

/-! ## strconv -/

/-- The two error kinds of Go's `strconv.NumError`. -/
inductive NumError where
  | ErrSyntax
  | ErrRange
  deriving DecidableEq, Repr

/-- Value of a decimal digit byte; `none` for any other character
(`strconv.ParseUint` with base 10 rejects letters, `_` and every byte ≥ 0x80). -/
def digitVal (c : Char) : Option Nat :=
  if 48 ≤ c.toNat ∧ c.toNat ≤ 57 then some (c.toNat - 48) else none

/-- The digit loop of `strconv.ParseUint(s, 10, 64)`: `cutoff = maxUint64/10 + 1`,
`maxVal = 2^64 - 1`; an overflow is reported as soon as it is met. -/
def parseUintLoop : List Char → Nat → Except NumError Nat
  | [], n => .ok n
  | c :: cs, n =>
    match digitVal c with
    | none => .error .ErrSyntax
    | some d =>
      if n ≥ (2 ^ 64 - 1) / 10 + 1 then .error .ErrRange
      else if n * 10 + d > 2 ^ 64 - 1 then .error .ErrRange
      else parseUintLoop cs (n * 10 + d)

/-- Go `strconv.ParseUint(s, 10, 64)`. -/
def ParseUint (s : List Char) : Except NumError Nat :=
  if s = [] then .error .ErrSyntax else parseUintLoop s 0

/-- Go `strconv.ParseInt(s, 10, 64)`: optional sign, then `ParseUint`, then the
signed range check with `cutoff = 1 << 63`. -/
def ParseInt (s : List Char) : Except NumError Int :=
  match s with
  | [] => .error .ErrSyntax
  | c :: cs =>
    let neg := c = '-'
    let digits := if c = '+' ∨ c = '-' then cs else c :: cs
    match ParseUint digits with
    | .error e => .error e
    | .ok un =>
      if ¬ neg ∧ un ≥ 2 ^ 63 then .error .ErrRange
      else if neg ∧ un > 2 ^ 63 then .error .ErrRange
      else .ok (if neg then - (un : Int) else (un : Int))

/-- Go `strconv.Atoi` on a 64-bit platform: the same result as
`ParseInt(s, 10, 0)` (its fast path for short strings computes the same value). -/
def Atoi (s : String) : Except NumError Int := ParseInt s.data

/-! ## Entities and DTOs -/

/-- Go `time.Time`, as seconds and nanoseconds; `Time.zero` is the zero value. -/
structure Time where
  sec : Int
  nsec : Nat
  deriving DecidableEq, Repr

/-- The zero value of `time.Time`. -/
def Time.zero : Time := ⟨0, 0⟩

/-- The entity `repositories.User`. -/
structure User where
  ID : Int
  Name : String
  Email : String
  CreatedAt : Time
  UpdatedAt : Time
  deriving DecidableEq, Repr

/-- DTO `CreateUserRequest` (`types.go`). -/
structure CreateUserRequest where
  Name : String
  Email : String
  deriving DecidableEq, Repr

/-- DTO `UpdateUserRequest` (`types.go`). -/
structure UpdateUserRequest where
  Name : String
  Email : String
  deriving DecidableEq, Repr

/-- DTO `UserResponse` (`types.go`). -/
structure UserResponse where
  ID : Int
  Name : String
  Email : String
  CreatedAt : Time
  UpdatedAt : Time
  deriving DecidableEq, Repr

/-- DTO `HealthResponse` (`types.go`). -/
structure HealthResponse where
  Status : String
  Service : String
  deriving DecidableEq, Repr

/-- Modelled from the spec: the error values of the user repository, whose
implementation is not part of the sources. The spec names `NotFound` for an
absent id; every other failure carries its internal detail. -/
inductive RepoError where
  | NotFound
  | Other (detail : String)
  deriving DecidableEq, Repr

/-! ## HTTP responses -/

/-- A value stored in a `gin.H` map. -/
inductive HValue where
  | str (s : String)
  | int (i : Int)
  | users (l : List UserResponse)
  deriving DecidableEq, Repr

/-- The object handed to `c.JSON`. A `gin.H` is given by its entries in the
order the source writes them. -/
inductive Body where
  | H (entries : List (String × HValue))
  | user (u : UserResponse)
  | health (h : HealthResponse)
  deriving DecidableEq, Repr

/-- A response written with `c.JSON(status, body)`. -/
structure Response where
  status : Nat
  body : Body
  deriving DecidableEq, Repr

def StatusOK : Nat := 200
def StatusCreated : Nat := 201
def StatusBadRequest : Nat := 400
def StatusNotFound : Nat := 404
def StatusInternalServerError : Nat := 500

/-! ## Requests and binding -/

/-- Outcome of decoding the JSON request body into a DTO (`encoding/json`):
a decoding failure with its message, or the decoded struct, where a field
missing from the body holds the zero value `""`. -/
inductive Decoded (α : Type) where
  | failed (msg : String)
  | value (a : α)
  deriving DecidableEq, Repr

/-- The part of a `gin.Context` the handlers read. -/
structure Request where
  -- path parameters, as bound by the router
  params : List (String × String)
  -- query string, as (key, value) pairs in order of appearance
  query : List (String × String)
  -- the body as decoded into the two-field DTO {name, email}
  body : Decoded (String × String)
  deriving Repr

/-- Gin `c.Param(key)`: the bound value, or `""`. -/
def Request.Param (c : Request) (key : String) : String :=
  (c.params.lookup key).getD ""

/-- Gin `c.DefaultQuery(key, def)`: the first value of the key when the key is
present in the query string (even if empty), else the default. -/
def Request.DefaultQuery (c : Request) (key : String) (dflt : String) : String :=
  match c.query.lookup key with
  | some v => v
  | none => dflt

/-- One failed field of the validator, with the tag that failed. -/
structure FieldError where
  structName : String
  field : String
  tag : String
  deriving DecidableEq, Repr

/-- The text of one validator field error. -/
def FieldError.Error (e : FieldError) : String :=
  "Key: '" ++ e.structName ++ "." ++ e.field ++ "' Error:Field validation for '" ++
    e.field ++ "' failed on the '" ++ e.tag ++ "' tag"

/-- The error of `c.ShouldBindJSON`. -/
inductive BindError where
  | decode (msg : String)
  | validation (errs : List FieldError)
  deriving DecidableEq, Repr

/-- Go `err.Error()` of a binding error; validation errors are joined by newlines. -/
def BindError.Error : BindError → String
  | .decode msg => msg
  | .validation errs => "\n".intercalate (errs.map FieldError.Error)

/-- Field validation for `binding:"required"` on a string field. -/
def validateRequired (structName field value : String) : List FieldError :=
  if value = "" then [⟨structName, field, "required"⟩] else []

/-- Field validation for `binding:"required,email"`: the first failing tag is
reported. `isEmail` is the validator library's address check. -/
def validateRequiredEmail (isEmail : String → Bool) (structName field value : String) :
    List FieldError :=
  if value = "" then [⟨structName, field, "required"⟩]
  else if isEmail value then [] else [⟨structName, field, "email"⟩]

/-- Gin `c.ShouldBindJSON(&req)` for a DTO with `Name` (`required`) and `Email`
(`required,email`): decode, then validate both fields. -/
def ShouldBindJSON (isEmail : String → Bool) (structName : String) (c : Request) :
    Except BindError (String × String) :=
  match c.body with
  | .failed msg => .error (.decode msg)
  | .value (name, email) =>
    match validateRequired structName "Name" name ++
        validateRequiredEmail isEmail structName "Email" email with
    | [] => .ok (name, email)
    | errs => .error (.validation errs)

/-! ## Repository interface and handler outcomes -/

/-- Modelled from the spec: the interface `repositories.UserRepository`, whose
declaration is not part of the sources: `CreateUser(ctx, user) → (User, error)`,
`GetUserByID(ctx, id) → (User, error)`, `ListUsers(ctx, limit, offset) →
([]User, error)`, `UpdateUser(ctx, user) → (User, error)`, `DeleteUser(ctx, id) →
error`. Each method reads and updates the storage state `σ`. -/
structure UserRepository (σ : Type) where
  CreateUser : σ → User → Except RepoError User × σ
  GetUserByID : σ → Int → Except RepoError User × σ
  ListUsers : σ → Int → Int → Except RepoError (List User) × σ
  UpdateUser : σ → User → Except RepoError User × σ
  DeleteUser : σ → Int → Option RepoError × σ

/-- A repository method invocation, with its arguments. -/
inductive RepoCall where
  | CreateUser (u : User)
  | GetUserByID (id : Int)
  | ListUsers (limit offset : Int)
  | UpdateUser (u : User)
  | DeleteUser (id : Int)
  deriving DecidableEq, Repr

/-- A log line written with `h.logger.Error().Err(err).Msg(msg)`. -/
structure LogEntry where
  level : String
  err : RepoError
  msg : String
  deriving DecidableEq, Repr

/-- What one handler invocation did: the response written, the repository
calls made (in order), the log lines written and the storage state after. -/
structure Outcome (σ : Type) where
  response : Response
  calls : List RepoCall
  logs : List LogEntry
  state : σ

/-- The struct `UserHandler`; its logger is represented by the `logs` of the
outcome, `isEmail` is the address check of the validator used by the binding. -/
structure UserHandler (σ : Type) where
  userRepo : UserRepository σ
  isEmail : String → Bool

/-- The `gin.H{"error": msg}` body. -/
def errorBody (msg : String) : Body := .H [("error", .str msg)]

/-! ## `user_handler.go` -/

/-- Handler `UserHandler.createUser`. -/
def UserHandler.createUser {σ : Type} (h : UserHandler σ) (st : σ) (c : Request) :
    Outcome σ :=
  match ShouldBindJSON h.isEmail "CreateUserRequest" c with
  | .error err =>
    { response := ⟨StatusBadRequest, errorBody err.Error⟩, calls := [], logs := [], state := st }
  | .ok (name, email) =>
    let user : User :=
      { ID := 0, Name := name, Email := email, CreatedAt := Time.zero, UpdatedAt := Time.zero }
    match h.userRepo.CreateUser st user with
    | (.error err, st') =>
      { response := ⟨StatusInternalServerError, errorBody "Failed to create user"⟩,
        calls := [.CreateUser user],
        logs := [⟨"error", err, "Failed to create user"⟩], state := st' }
    | (.ok createdUser, st') =>
      { response := ⟨StatusCreated, .user
          { ID := createdUser.ID, Name := createdUser.Name, Email := createdUser.Email,
            CreatedAt := createdUser.CreatedAt, UpdatedAt := createdUser.UpdatedAt }⟩,
        calls := [.CreateUser user], logs := [], state := st' }

/-- Handler `UserHandler.getUser`. -/
def UserHandler.getUser {σ : Type} (h : UserHandler σ) (st : σ) (c : Request) :
    Outcome σ :=
  let idStr := c.Param "id"
  match ParseInt idStr.data with
  | .error _ =>
    { response := ⟨StatusBadRequest, errorBody "Invalid user ID"⟩,
      calls := [], logs := [], state := st }
  | .ok id =>
    match h.userRepo.GetUserByID st id with
    | (.error err, st') =>
      { response := ⟨StatusNotFound, errorBody "User not found"⟩,
        calls := [.GetUserByID id],
        logs := [⟨"error", err, "Failed to get user"⟩], state := st' }
    | (.ok user, st') =>
      { response := ⟨StatusOK, .user
          { ID := user.ID, Name := user.Name, Email := user.Email,
            CreatedAt := user.CreatedAt, UpdatedAt := user.UpdatedAt }⟩,
        calls := [.GetUserByID id], logs := [], state := st' }

/-- The `limit` computed at the top of `listUsers`. -/
def listLimit (c : Request) : Int :=
  match Atoi (c.DefaultQuery "limit" "20") with
  | .ok l => if l > 0 then l else 20
  | .error _ => 20

/-- The `offset` computed at the top of `listUsers`. -/
def listOffset (c : Request) : Int :=
  match Atoi (c.DefaultQuery "offset" "0") with
  | .ok o => if o ≥ 0 then o else 0
  | .error _ => 0

/-- Handler `UserHandler.listUsers`. -/
def UserHandler.listUsers {σ : Type} (h : UserHandler σ) (st : σ) (c : Request) :
    Outcome σ :=
  let limit := listLimit c
  let offset := listOffset c
  match h.userRepo.ListUsers st limit offset with
  | (.error err, st') =>
    { response := ⟨StatusInternalServerError, errorBody "Failed to list users"⟩,
      calls := [.ListUsers limit offset],
      logs := [⟨"error", err, "Failed to list users"⟩], state := st' }
  | (.ok users, st') =>
    let response := users.map fun user =>
      ({ ID := user.ID, Name := user.Name, Email := user.Email,
         CreatedAt := user.CreatedAt, UpdatedAt := user.UpdatedAt } : UserResponse)
    { response := ⟨StatusOK, .H [("users", .users response), ("limit", .int limit),
        ("offset", .int offset)]⟩,
      calls := [.ListUsers limit offset], logs := [], state := st' }

/-- Handler `UserHandler.updateUser`. -/
def UserHandler.updateUser {σ : Type} (h : UserHandler σ) (st : σ) (c : Request) :
    Outcome σ :=
  let idStr := c.Param "id"
  match ParseInt idStr.data with
  | .error _ =>
    { response := ⟨StatusBadRequest, errorBody "Invalid user ID"⟩,
      calls := [], logs := [], state := st }
  | .ok id =>
    match ShouldBindJSON h.isEmail "UpdateUserRequest" c with
    | .error err =>
      { response := ⟨StatusBadRequest, errorBody err.Error⟩,
        calls := [], logs := [], state := st }
    | .ok (name, email) =>
      let user : User :=
        { ID := id, Name := name, Email := email,
          CreatedAt := Time.zero, UpdatedAt := Time.zero }
      match h.userRepo.UpdateUser st user with
      | (.error err, st') =>
        { response := ⟨StatusInternalServerError, errorBody "Failed to update user"⟩,
          calls := [.UpdateUser user],
          logs := [⟨"error", err, "Failed to update user"⟩], state := st' }
      | (.ok updatedUser, st') =>
        { response := ⟨StatusOK, .user
            { ID := updatedUser.ID, Name := updatedUser.Name, Email := updatedUser.Email,
              CreatedAt := updatedUser.CreatedAt, UpdatedAt := updatedUser.UpdatedAt }⟩,
          calls := [.UpdateUser user], logs := [], state := st' }

/-- Handler `UserHandler.deleteUser`. -/
def UserHandler.deleteUser {σ : Type} (h : UserHandler σ) (st : σ) (c : Request) :
    Outcome σ :=
  let idStr := c.Param "id"
  match ParseInt idStr.data with
  | .error _ =>
    { response := ⟨StatusBadRequest, errorBody "Invalid user ID"⟩,
      calls := [], logs := [], state := st }
  | .ok id =>
    match h.userRepo.DeleteUser st id with
    | (some err, st') =>
      { response := ⟨StatusInternalServerError, errorBody "Failed to delete user"⟩,
        calls := [.DeleteUser id],
        logs := [⟨"error", err, "Failed to delete user"⟩], state := st' }
    | (none, st') =>
      { response := ⟨StatusOK, .H [("message", .str "User deleted successfully")]⟩,
        calls := [.DeleteUser id], logs := [], state := st' }

/-! ## `health_handler.go` -/

/-- Handler `HealthHandler.healthCheck`. -/
def healthCheck : Response :=
  ⟨StatusOK, .health { Status := "healthy", Service := "do-template-api" }⟩

/-! ## Gin route registration (`path.Join`, `joinPaths`, `RouterGroup`) -/

/-- Split a path at every `/`, keeping empty pieces. -/
def splitSlash : List Char → List (List Char)
  | [] => [[]]
  | c :: cs =>
    match splitSlash cs with
    | [] => [[c]]
    | seg :: segs => if c = '/' then [] :: seg :: segs else (c :: seg) :: segs

/-- One step of `path.Clean` over the elements of a path, `acc` holding the
elements kept so far, last one first: an empty element or `.` is dropped, `..`
removes the element before it (at the start of a rooted path it is dropped, at
the start of a relative path it is kept). -/
def cleanStep (rooted : Bool) (acc : List (List Char)) (seg : List Char) : List (List Char) :=
  if seg = [] ∨ seg = ['.'] then acc
  else if seg = ['.', '.'] then
    match acc with
    | [] => if rooted then [] else [seg]
    | top :: rest => if top = ['.', '.'] then seg :: acc else rest
  else seg :: acc

/-- Go `path.Clean`. -/
def pathClean (p : String) : String :=
  let rooted := p.data.head? = some '/'
  let segs := ((splitSlash p.data).foldl (cleanStep rooted) []).reverse
  let body := String.mk (List.intercalate ['/'] segs)
  let out := if rooted then "/" ++ body else body
  if out = "" then "." else out

/-- Go `path.Join` of two elements: empty elements are ignored, the rest joined
by `/` and cleaned; the join of no elements is `""`. -/
def pathJoin (a b : String) : String :=
  if a = "" ∧ b = "" then ""
  else if a = "" then pathClean b
  else if b = "" then pathClean a
  else pathClean (a ++ "/" ++ b)

/-- Gin `joinPaths(absolutePath, relativePath)`. -/
def joinPaths (absolutePath relativePath : String) : String :=
  if relativePath = "" then absolutePath
  else
    let finalPath := pathJoin absolutePath relativePath
    if relativePath.data.getLast? = some '/' ∧ finalPath.data.getLast? ≠ some '/' then
      finalPath ++ "/"
    else finalPath

/-- The handler methods that routes are bound to. -/
inductive HandlerRef where
  | createUser
  | listUsers
  | getUser
  | updateUser
  | deleteUser
  | healthCheck
  deriving DecidableEq, Repr

/-- An entry of the route table: method, full path, handler. -/
structure Route where
  method : String
  path : String
  handler : HandlerRef
  deriving DecidableEq, Repr

/-- Gin `Engine`, reduced to its route table (in registration order); its own
router group has base path `/`. -/
structure Engine where
  routes : List Route
  deriving DecidableEq, Repr

/-- Gin `gin.New()`. -/
def Engine.new : Engine := { routes := [] }

/-- Gin `RouterGroup`: the base path under which its routes are registered. -/
structure RouterGroup where
  basePath : String
  deriving DecidableEq, Repr

/-- The router group embedded in the engine. -/
def Engine.RouterGroup : RouterGroup := { basePath := "/" }

/-- Gin `group.Group(relativePath)`. -/
def RouterGroup.Group (g : RouterGroup) (relativePath : String) : RouterGroup :=
  { basePath := joinPaths g.basePath relativePath }

/-- Gin `group.handle(method, relativePath, handler)`: registers the route
under the absolute path. -/
def RouterGroup.handle (g : RouterGroup) (method relativePath : String) (hd : HandlerRef)
    (e : Engine) : Engine :=
  { routes := e.routes ++ [⟨method, joinPaths g.basePath relativePath, hd⟩] }

def RouterGroup.POST (g : RouterGroup) := g.handle "POST"
def RouterGroup.GET (g : RouterGroup) := g.handle "GET"
def RouterGroup.PUT (g : RouterGroup) := g.handle "PUT"
def RouterGroup.DELETE (g : RouterGroup) := g.handle "DELETE"

/-! ## `server.go` -/

/-- Method `HTTPServer.setupRoutes`, as the engine after the registrations. -/
def setupRoutes (engine : Engine) : Engine :=
  let api := Engine.RouterGroup.Group "/api/v1"
  let users := api.Group "/users"
  let e1 := users.POST "" .createUser engine
  let e2 := users.GET "" .listUsers e1
  let e3 := users.GET "/:id" .getUser e2
  let e4 := users.PUT "/:id" .updateUser e3
  let e5 := users.DELETE "/:id" .deleteUser e4
  Engine.RouterGroup.GET "/health" .healthCheck e5

/-- A Go `error` value of the server lifecycle: the sentinel
`http.ErrServerClosed`, or any other error. -/
inductive ServerError where
  | ErrServerClosed
  | Other (msg : String)
  deriving DecidableEq, Repr

/-- Why `ListenAndServe` stopped serving: `Shutdown` was called (graceful
shutdown), or binding or accepting failed with a listener error. -/
inductive ServeEnd where
  | gracefulShutdown
  | listenerError (msg : String)
  deriving DecidableEq, Repr

/-- Go `(*http.Server).ListenAndServe`: it always returns a non-nil error; after
`Shutdown` the returned error is `ErrServerClosed`. `none` stands for `nil`. -/
def ListenAndServe (ending : ServeEnd) : Option ServerError :=
  match ending with
  | .gracefulShutdown => some .ErrServerClosed
  | .listenerError msg => some (.Other msg)

/-- Method `HTTPServer.Start`: logs, then returns what `ListenAndServe` returns. -/
def Start (ending : ServeEnd) : Option ServerError :=
  ListenAndServe ending

/-- The goroutine of the `serve` command (`cli.go`): whether it ends in
`logger.Fatal`, which it does when `Start` returned an error other than
`http.ErrServerClosed`. -/
def serveIsFatal (ending : ServeEnd) : Bool :=
  match Start ending with
  | none => false
  | some err => err ≠ .ErrServerClosed

/-- The route table the specification lists: six entries, all under `/api/v1`. -/
def specRoutes : List Route :=
  [⟨"POST", "/api/v1/users", .createUser⟩, ⟨"GET", "/api/v1/users", .listUsers⟩,
   ⟨"GET", "/api/v1/users/:id", .getUser⟩, ⟨"PUT", "/api/v1/users/:id", .updateUser⟩,
   ⟨"DELETE", "/api/v1/users/:id", .deleteUser⟩, ⟨"GET", "/api/v1/health", .healthCheck⟩]

/-- A route path lies under the versioned base `/api/v1`. -/
def underApiV1 (r : Route) : Bool := "/api/v1/".data.isPrefixOf r.path.data

/-! ## `config.go` -/

/-- Struct `ServerConfig`. -/
structure ServerConfig where
  Host : String
  Port : Int
  ReadTimeout : Int
  WriteTimeout : Int
  deriving DecidableEq, Repr

/-- Struct `DatabaseConfig`. -/
structure DatabaseConfig where
  Host : String
  Port : Int
  User : String
  Password : String
  Database : String
  SSLMode : String
  MaxOpenConns : Int
  MaxIdleConns : Int
  ConnMaxLifetime : Int
  deriving DecidableEq, Repr

/-- Struct `LoggerConfig`. -/
structure LoggerConfig where
  Level : String
  Format : String
  Output : String
  NoColor : Bool
  deriving DecidableEq, Repr

/-- Struct `AppConfig`. -/
structure AppConfig where
  Name : String
  Version : String
  Environment : String
  Debug : Bool
  deriving DecidableEq, Repr

/-- Struct `Config`. -/
structure Config where
  Server : ServerConfig
  Database : DatabaseConfig
  Logger : LoggerConfig
  App : AppConfig
  deriving DecidableEq, Repr

/-- The Go zero value of `Config` (`var config Config`). -/
def Config.zero : Config :=
  { Server := ⟨"", 0, 0, 0⟩,
    Database := ⟨"", 0, "", "", "", "", 0, 0, 0⟩,
    Logger := ⟨"", "", "", false⟩,
    App := ⟨"", "", "", false⟩ }

/-- A typed configuration value: of a flag, or of a setting read by viper. -/
inductive Value where
  | str (s : String)
  | int (i : Int)
  | bool (b : Bool)
  deriving DecidableEq, Repr

/-- A `pflag.Flag`: name, default value, usage text, whether it was set on the
command line (`Changed`) and its current value. -/
structure Flag where
  name : String
  defValue : Value
  usage : String
  changed : Bool
  value : Value
  deriving DecidableEq, Repr

/-- Pflag `FlagSet.String/Int/Bool(name, value, usage)`: adds a flag holding its
default. -/
def defineFlag (name : String) (dflt : Value) (usage : String) (flags : List Flag) :
    List Flag :=
  flags ++ [{ name := name, defValue := dflt, usage := usage, changed := false, value := dflt }]

/-- Pflag `FlagSet.Lookup(name)`. -/
def lookupFlag (flags : List Flag) (name : String) : Option Flag :=
  flags.find? fun f => f.name = name

/-- The package-level viper instance, reduced to what this program touches:
the `AutomaticEnv` switch, the env key replacer (old and new character) and the
flags bound to keys (key and name of the bound flag, which viper holds by
pointer). The program sets no default, override or alias, binds no environment
variable by name and reads no configuration file. -/
structure Viper where
  automaticEnv : Bool
  envKeyReplacer : Option (Char × Char)
  pflags : List (String × String)
  deriving DecidableEq, Repr

/-- The viper instance at program start. -/
def Viper.new : Viper := { automaticEnv := false, envKeyReplacer := none, pflags := [] }

/-- Viper `BindPFlag(key, flag)`: a nil flag is refused (the source ignores the
returned error), else the key is bound to the flag. -/
def Viper.BindPFlag (v : Viper) (key : String) (flag : Option Flag) : Viper :=
  match flag with
  | none => v
  | some f => { v with pflags := v.pflags.filter (fun p => p.1 ≠ key) ++ [(key, f.name)] }

/-- The name of the environment variable viper consults for a key under
`AutomaticEnv`: the key in upper case, passed through the key replacer. -/
def Viper.envKey (v : Viper) (key : String) : String :=
  let upper := key.data.map Char.toUpper
  match v.envKeyReplacer with
  | none => String.mk upper
  | some (old, new) => String.mk (upper.map fun c => if c = old then new else c)

/-- Viper `Get(key)` (its `find`), in priority order: a bound flag that was set
on the command line; under `AutomaticEnv` a non-empty environment variable; the
default of a bound flag. -/
def Viper.Get (v : Viper) (flags : List Flag) (env : List (String × String))
    (key : String) : Option Value :=
  let bound := (v.pflags.lookup key).bind (lookupFlag flags)
  let fromEnv :=
    if v.automaticEnv then
      match env.lookup (v.envKey key) with
      | some val => if val = "" then none else some (Value.str val)
      | none => none
    else none
  match bound with
  | some f =>
    if f.changed then some f.value
    else match fromEnv with
      | some val => some val
      | none => some f.defValue
  | none => fromEnv

/-- Viper `AllKeys()`: the keys viper knows of, here the keys with a bound flag.
A key that is only backed by an environment variable through `AutomaticEnv` is
not among them. -/
def Viper.AllKeys (v : Viper) : List String := v.pflags.map Prod.fst

/-- Viper `AllSettings()`: the value of every known key. -/
def Viper.AllSettings (v : Viper) (flags : List Flag) (env : List (String × String)) :
    List (String × Value) :=
  v.AllKeys.filterMap fun k => (v.Get flags env k).map fun val => (k, val)

/-- The weakly typed conversions of the decoder behind `viper.Unmarshal`, used
when a setting does not have the type of its field (for example a string from
the environment for an `int` field); `none` is a decoding error. They are left
open: every statement below holds whatever they do. -/
structure WeakDecoder where
  toStr : Value → Option String
  toInt : Value → Option Int
  toBool : Value → Option Bool

/-- Decode the setting of a `string` field; a key without setting leaves the
field at its zero value. -/
def decodeStr (d : WeakDecoder) (settings : List (String × Value)) (key : String) :
    Option String :=
  match settings.lookup key with
  | none => some ""
  | some (.str s) => some s
  | some val => d.toStr val

/-- Decode the setting of an `int` field. -/
def decodeInt (d : WeakDecoder) (settings : List (String × Value)) (key : String) :
    Option Int :=
  match settings.lookup key with
  | none => some 0
  | some (.int i) => some i
  | some val => d.toInt val

/-- Decode the setting of a `bool` field. -/
def decodeBool (d : WeakDecoder) (settings : List (String × Value)) (key : String) :
    Option Bool :=
  match settings.lookup key with
  | none => some false
  | some (.bool b) => some b
  | some val => d.toBool val

/-- The part of `Unmarshal` that fills `Config.Server`. -/
def decodeServer (d : WeakDecoder) (m : List (String × Value)) : Option ServerConfig :=
  (decodeStr d m "server.host").bind fun host =>
  (decodeInt d m "server.port").bind fun port =>
  (decodeInt d m "server.read_timeout").bind fun readTimeout =>
  (decodeInt d m "server.write_timeout").bind fun writeTimeout =>
  some { Host := host, Port := port, ReadTimeout := readTimeout, WriteTimeout := writeTimeout }

/-- The part of `Unmarshal` that fills `Config.Database`. -/
def decodeDatabase (d : WeakDecoder) (m : List (String × Value)) : Option DatabaseConfig :=
  (decodeStr d m "database.host").bind fun host =>
  (decodeInt d m "database.port").bind fun port =>
  (decodeStr d m "database.user").bind fun user =>
  (decodeStr d m "database.password").bind fun password =>
  (decodeStr d m "database.database").bind fun database =>
  (decodeStr d m "database.ssl_mode").bind fun sslMode =>
  (decodeInt d m "database.max_open_conns").bind fun maxOpenConns =>
  (decodeInt d m "database.max_idle_conns").bind fun maxIdleConns =>
  (decodeInt d m "database.conn_max_lifetime").bind fun connMaxLifetime =>
  some { Host := host, Port := port, User := user, Password := password,
         Database := database, SSLMode := sslMode, MaxOpenConns := maxOpenConns,
         MaxIdleConns := maxIdleConns, ConnMaxLifetime := connMaxLifetime }

/-- The part of `Unmarshal` that fills `Config.Logger`. -/
def decodeLogger (d : WeakDecoder) (m : List (String × Value)) : Option LoggerConfig :=
  (decodeStr d m "logger.level").bind fun level =>
  (decodeStr d m "logger.format").bind fun format =>
  (decodeStr d m "logger.output").bind fun output =>
  (decodeBool d m "logger.no_color").bind fun noColor =>
  some { Level := level, Format := format, Output := output, NoColor := noColor }

/-- The part of `Unmarshal` that fills `Config.App`. -/
def decodeApp (d : WeakDecoder) (m : List (String × Value)) : Option AppConfig :=
  (decodeStr d m "app.name").bind fun name =>
  (decodeStr d m "app.version").bind fun version =>
  (decodeStr d m "app.environment").bind fun environment =>
  (decodeBool d m "app.debug").bind fun debug =>
  some { Name := name, Version := version, Environment := environment, Debug := debug }

/-- Viper `Unmarshal(&config)` on a zero `Config`: every field is decoded from
the setting under its `mapstructure` key; `none` is the decoding error. -/
def Viper.Unmarshal (v : Viper) (d : WeakDecoder) (flags : List Flag)
    (env : List (String × String)) : Option Config :=
  let m := v.AllSettings flags env
  (decodeServer d m).bind fun server =>
  (decodeDatabase d m).bind fun database =>
  (decodeLogger d m).bind fun logger =>
  (decodeApp d m).bind fun app =>
  some { Server := server, Database := database, Logger := logger, App := app }

/-- Function `NewConfig`: switches `AutomaticEnv` on, installs the key replacer
`strings.NewReplacer("_", ".")` and unmarshals. It returns the configuration
(`none` for the unmarshalling error) and the viper instance it leaves behind. -/
def NewConfig (d : WeakDecoder) (v : Viper) (flags : List Flag)
    (env : List (String × String)) : Option Config × Viper :=
  let v1 := { v with automaticEnv := true }
  let v2 := { v1 with envKeyReplacer := some ('_', '.') }
  (v2.Unmarshal d flags env, v2)

/-- Method `Config.bindFlagsToViper`: binds each key to the flag of the same name. -/
def bindFlagsToViper (flags : List Flag) (v : Viper) : Viper :=
  let v := v.BindPFlag "server.host" (lookupFlag flags "server.host")
  let v := v.BindPFlag "server.port" (lookupFlag flags "server.port")
  let v := v.BindPFlag "server.read_timeout" (lookupFlag flags "server.read_timeout")
  let v := v.BindPFlag "server.write_timeout" (lookupFlag flags "server.write_timeout")
  let v := v.BindPFlag "database.host" (lookupFlag flags "database.host")
  let v := v.BindPFlag "database.port" (lookupFlag flags "database.port")
  let v := v.BindPFlag "database.user" (lookupFlag flags "database.user")
  let v := v.BindPFlag "database.password" (lookupFlag flags "database.password")
  let v := v.BindPFlag "database.database" (lookupFlag flags "database.database")
  let v := v.BindPFlag "database.ssl_mode" (lookupFlag flags "database.ssl_mode")
  let v := v.BindPFlag "database.max_open_conns" (lookupFlag flags "database.max_open_conns")
  let v := v.BindPFlag "database.max_idle_conns" (lookupFlag flags "database.max_idle_conns")
  let v := v.BindPFlag "database.conn_max_lifetime"
    (lookupFlag flags "database.conn_max_lifetime")
  let v := v.BindPFlag "logger.level" (lookupFlag flags "logger.level")
  let v := v.BindPFlag "logger.format" (lookupFlag flags "logger.format")
  let v := v.BindPFlag "logger.output" (lookupFlag flags "logger.output")
  let v := v.BindPFlag "logger.no_color" (lookupFlag flags "logger.no_color")
  let v := v.BindPFlag "app.name" (lookupFlag flags "app.name")
  let v := v.BindPFlag "app.version" (lookupFlag flags "app.version")
  let v := v.BindPFlag "app.environment" (lookupFlag flags "app.environment")
  v.BindPFlag "app.debug" (lookupFlag flags "app.debug")

/-- Method `Config.SetCobraFlags`: defines the persistent flags with their
defaults on the command, then binds them to viper. It returns the flag set of
the command and the viper instance. -/
def SetCobraFlags (flags : List Flag) (v : Viper) : List Flag × Viper :=
  let fs := defineFlag "server.host" (.str "localhost") "Server host" flags
  let fs := defineFlag "server.port" (.int 8080) "Server port" fs
  let fs := defineFlag "server.read_timeout" (.int 30) "Server read timeout in seconds" fs
  let fs := defineFlag "server.write_timeout" (.int 30) "Server write timeout in seconds" fs
  let fs := defineFlag "database.host" (.str "localhost") "Database host" fs
  let fs := defineFlag "database.port" (.int 5432) "Database port" fs
  let fs := defineFlag "database.user" (.str "postgres") "Database user" fs
  let fs := defineFlag "database.password" (.str "postgres") "Database password" fs
  let fs := defineFlag "database.database" (.str "do_template_api") "Database name" fs
  let fs := defineFlag "database.ssl_mode" (.str "disable") "Database SSL mode" fs
  let fs := defineFlag "database.max_open_conns" (.int 25) "Database max open connections" fs
  let fs := defineFlag "database.max_idle_conns" (.int 25) "Database max idle connections" fs
  let fs := defineFlag "database.conn_max_lifetime" (.int 300)
    "Database connection max lifetime in seconds" fs
  let fs := defineFlag "logger.level" (.str "info") "Log level" fs
  let fs := defineFlag "logger.format" (.str "console") "Log format" fs
  let fs := defineFlag "logger.output" (.str "stdout") "Log output" fs
  let fs := defineFlag "logger.no_color" (.bool false) "Disable colored output" fs
  let fs := defineFlag "app.name" (.str "do-template-worker") "Application name" fs
  let fs := defineFlag "app.version" (.str "1.0.0") "Application version" fs
  let fs := defineFlag "app.environment" (.str "development") "Application environment" fs
  let fs := defineFlag "app.debug" (.bool false) "Debug mode" fs
  (fs, bindFlagsToViper fs v)

/-! ## The container, `cli.go` and `NewHTTPServer` -/

/-- The process state the constructors act on: the environment, the
package-level viper instance, the persistent flag set of the root command and
the container's cached `*config.Config` (registered with `do.Lazy(NewConfig)`:
built on first resolution, then kept). -/
structure World where
  env : List (String × String)
  viper : Viper
  rootFlags : List Flag
  configInstance : Option Config
  deriving DecidableEq, Repr

/-- The state at program start with the given environment. -/
def World.start (env : List (String × String)) : World :=
  { env := env, viper := Viper.new, rootFlags := [], configInstance := none }

/-- Resolution `do.MustInvoke[*config.Config]`: the cached instance if there is
one, else the result of `NewConfig`, cached. `none` is the panic of `MustInvoke`
when `NewConfig` fails. -/
def invokeConfig (d : WeakDecoder) (w : World) : Option (Config × World) :=
  match w.configInstance with
  | some c => some (c, w)
  | none =>
    match NewConfig d w.viper w.rootFlags w.env with
    | (some c, v) => some (c, { w with viper := v, configInstance := some c })
    | (none, _) => none

/-- A `cobra.Command`, reduced to `Use`, `Version` and its persistent flags. -/
structure Command where
  Use : String
  Version : String
  persistentFlags : List Flag
  deriving DecidableEq, Repr

/-- Struct `CLI`. -/
structure CLI where
  config : Config
  rootCommand : Command
  deriving DecidableEq, Repr

/-- Function `NewCLI`: resolves the configuration, creates the root command
from it, then sets up the persistent flags through `SetCobraFlags`. -/
def NewCLI (d : WeakDecoder) (w : World) : Option (CLI × World) :=
  match invokeConfig d w with
  | none => none
  | some (config, w1) =>
    let root : Command :=
      { Use := config.App.Name, Version := config.App.Version, persistentFlags := [] }
    let (fs, v) := SetCobraFlags root.persistentFlags w1.viper
    some ({ config := config, rootCommand := { root with persistentFlags := fs } },
      { w1 with viper := v, rootFlags := fs })

/-- Go `strconv.Itoa`. -/
def Itoa (i : Int) : String := toString i

/-- Struct `HTTPServer` with the fields of its `http.Server` that come from the
configuration; timeouts in seconds. -/
structure HTTPServer where
  config : Config
  engine : Engine
  Addr : String
  ReadTimeout : Int
  WriteTimeout : Int
  IdleTimeout : Int
  deriving DecidableEq, Repr

/-- Function `NewHTTPServer`: the configuration is injected from the container,
the routes are set up and the `http.Server` is configured from it. -/
def NewHTTPServer (d : WeakDecoder) (w : World) : Option (HTTPServer × World) :=
  match invokeConfig d w with
  | none => none
  | some (config, w1) =>
    some ({ config := config,
            engine := setupRoutes Engine.new,
            Addr := config.Server.Host ++ ":" ++ Itoa config.Server.Port,
            ReadTimeout := config.Server.ReadTimeout,
            WriteTimeout := config.Server.WriteTimeout,
            IdleTimeout := 60 }, w1)

/-- The documented defaults: the default of every flag that `SetCobraFlags`
defines, set in the field of the same configuration key. -/
def documentedDefaults : Config :=
  { Server := ⟨"localhost", 8080, 30, 30⟩,
    Database := ⟨"localhost", 5432, "postgres", "postgres", "do_template_api", "disable",
      25, 25, 300⟩,
    Logger := ⟨"info", "console", "stdout", false⟩,
    App := ⟨"do-template-worker", "1.0.0", "development", false⟩ }

/-- A decoder whose weak conversions all fail. -/
def strictDecoder : WeakDecoder :=
  { toStr := fun _ => none, toInt := fun _ => none, toBool := fun _ => none }

/-! ## The container: `do.Package`, `do.Lazy` and the package declarations -/

/-- The components registered in the container, each named by the type its
provider returns: `*config.Config`, `*cli.CLI`, `zerolog.Logger`,
`*HTTPServer`, `*UserHandler`, `*HealthHandler`, the database and
`repositories.UserRepository`. -/
inductive ServiceId where
  | config
  | cli
  | logger
  | httpServer
  | userHandler
  | healthHandler
  | database
  | userRepository
  deriving DecidableEq, Repr, Fintype

/-- How a provider is registered: `do.Lazy` (built on first resolution, then
kept) or `do.Transient` (built anew on every resolution). -/
inductive ServiceKind where
  | lazy
  | transient
  deriving DecidableEq, Repr

/-- One registration of a package: the kind and the name of the service. -/
structure Registration where
  kind : ServiceKind
  name : ServiceId
  deriving DecidableEq, Repr

/-- Registration `do.Lazy(provider)`. -/
def Lazy (name : ServiceId) : Registration := { kind := .lazy, name := name }

/-- Registration `do.Transient(provider)`. -/
def Transient (name : ServiceId) : Registration := { kind := .transient, name := name }

/-- Variable `BasePackage` (`pkg/base.go`):
`do.Package(do.Lazy(config.NewConfig), do.Lazy(cli.NewCLI), do.Lazy(logger.NewLogger))`. -/
def BasePackage : List Registration := [Lazy .config, Lazy .cli, Lazy .logger]

/-- Variable `Package` of `pkg/http/package.go`:
`do.Package(do.Lazy(NewHTTPServer), do.Lazy(NewUserHandler), do.Lazy(NewHealthHandler))`. -/
def http.Package : List Registration :=
  [Lazy .httpServer, Lazy .userHandler, Lazy .healthHandler]

/-- Variable `Package` of `pkg/repositories/package.go`:
`do.Package(do.Lazy(NewDatabase), do.Lazy(NewUserRepository))`. -/
def repositories.Package : List Registration := [Lazy .database, Lazy .userRepository]

/-- The container (root scope of the injector): the kind under which each name
is registered, the instance kept for each built lazy service (instances are
told apart by their allocation number), and two counters that only record what
happened: how often each provider was invoked, and whether the resolution ever
ran out of its depth bound. -/
structure Container where
  kind : ServiceId → Option ServiceKind
  instances : ServiceId → Option Nat
  invoked : ServiceId → Nat
  nextInstance : Nat
  exhausted : Bool

/-- The container before any registration. -/
def Container.empty : Container :=
  { kind := fun _ => none, instances := fun _ => none, invoked := fun _ => 0,
    nextInstance := 0, exhausted := false }

/-- The function `f` with the value at `name` replaced by `v`. -/
def setAt {α : Type} (f : ServiceId → α) (name : ServiceId) (v : α) : ServiceId → α :=
  fun x => if x = name then v else f x

/-- Library `do.Provide`: registers the service; a name that is already
registered is refused (the library panics), `none` here. -/
def Provide (r : Registration) (c : Container) : Option Container :=
  match c.kind r.name with
  | some _ => none
  | none => some { c with kind := setAt c.kind r.name (some r.kind) }

/-- Apply the registrations of a package in order. -/
def provideAll : List Registration → Container → Option Container
  | [], c => some c
  | r :: rs, c =>
    match Provide r c with
    | none => none
    | some c1 => provideAll rs c1

/-- Library `do.New(packages...)`: a new container with the packages applied. -/
def New (packages : List (List Registration)) : Option Container :=
  provideAll packages.flatten Container.empty

/-- What a provider does when it is invoked: the services it resolves with
`do.MustInvoke` or as fields of `do.MustInvokeStruct`, in order, and whether it
then returns an instance (`ok`) or an error. A dependency that fails makes the
`Must` call panic, so the provider fails at that point. -/
structure Provider where
  deps : List ServiceId
  ok : Bool
  deriving DecidableEq, Repr

/-- Resolve the dependencies of a provider in order with `inv`; stop at the
first that fails. -/
def invokeDeps (inv : ServiceId → Container → Option Nat × Container) :
    List ServiceId → Container → Bool × Container
  | [], c => (true, c)
  | d :: ds, c =>
    match inv d c with
    | (some _, c1) => invokeDeps inv ds c1
    | (none, c1) => (false, c1)

/-- Library `do.Invoke` with the chain of services being built, to the depth
`fuel`. An unregistered name and a name that is already in the chain (circular
dependency) are errors. A lazy service that is built answers with its instance
and touches nothing. Otherwise the provider is invoked: its dependencies are
resolved with the name added to the chain, and when it returns an instance a
lazy service keeps it. -/
def invokeAux (providers : ServiceId → Provider) :
    Nat → List ServiceId → ServiceId → Container → Option Nat × Container
  | 0, _, _, c => (none, { c with exhausted := true })
  | fuel + 1, chain, name, c =>
    match c.kind name with
    | none => (none, c)
    | some kind =>
      if name ∈ chain then (none, c)
      else
        match (if kind = .lazy then c.instances name else none) with
        | some inst => (some inst, c)
        | none =>
          let c1 := { c with invoked := setAt c.invoked name (c.invoked name + 1) }
          match invokeDeps (invokeAux providers fuel (name :: chain))
              (providers name).deps c1 with
          | (false, c2) => (none, c2)
          | (true, c2) =>
            if (providers name).ok then
              (some c2.nextInstance,
                { c2 with
                  instances :=
                    if kind = .lazy then setAt c2.instances name (some c2.nextInstance)
                    else c2.instances,
                  nextInstance := c2.nextInstance + 1 })
            else (none, c2)

/-- Library `do.Invoke` from outside any provider. The chain never repeats a
name, so a depth of one more than the number of services is never used up. -/
def Invoke (providers : ServiceId → Provider) (name : ServiceId) (c : Container) :
    Option Nat × Container :=
  invokeAux providers 9 [] name c

/-- A run of the program as a sequence of `do.MustInvoke` calls: each success
is recorded with the instance returned; the first failure panics, which ends
the run. -/
def runMustInvoke (providers : ServiceId → Provider) :
    List ServiceId → Container → List (ServiceId × Nat) × Container
  | [], c => ([], c)
  | name :: names, c =>
    match Invoke providers name c with
    | (none, c1) => ([], c1)
    | (some inst, c1) =>
      let (results, c2) := runMustInvoke providers names c1
      ((name, inst) :: results, c2)

/-- The providers as the sources write them: `NewConfig` resolves nothing,
`NewCLI` resolves the configuration, `NewHTTPServer` has the fields `config`,
`logger`, `userHandler`, `healthHandler` injected, `NewUserHandler` the fields
`userRepo` and `logger`, `NewHealthHandler` the field `logger`. The providers
of the logger, the database and the user repository are not part of the
sources and are given. -/
def sourceProviders (configOk : Bool) (logger database userRepository : Provider) :
    ServiceId → Provider
  | .config => { deps := [], ok := configOk }
  | .cli => { deps := [.config], ok := true }
  | .logger => logger
  | .httpServer => { deps := [.config, .logger, .userHandler, .healthHandler], ok := true }
  | .userHandler => { deps := [.userRepository, .logger], ok := true }
  | .healthHandler => { deps := [.logger], ok := true }
  | .database => database
  | .userRepository => userRepository

/-- Every service is registered, and registered lazily. -/
def allLazy (c : Container) : Prop := ∀ name, c.kind name = some .lazy

/-- The invocation counters agree with the cache, given the chain of services
being built: a provider has been invoked once if its service is built or being
built, and never otherwise. -/
def Consistent (chain : List ServiceId) (c : Container) : Prop :=
  ∀ x, c.invoked x = if (c.instances x).isSome ∨ x ∈ chain then 1 else 0

/-! ## The list parameters in the words of the specification -/

/-- The natural number written by a non-empty string of decimal digits. -/
def decimalNat (ds : List Char) : Option Nat :=
  if ds ≠ [] ∧ ds.all (fun c => 48 ≤ c.toNat ∧ c.toNat ≤ 57) then
    some (ds.foldl (fun n c => n * 10 + (c.toNat - 48)) 0)
  else none

/-- The integer value of a string that is a decimal integer (an optional sign,
then decimal digits) within the range of a Go `int`, `-2^63 .. 2^63 - 1`. -/
def decimalInt (s : List Char) : Option Int :=
  match s with
  | [] => none
  | c :: cs =>
    if c = '-' then
      (decimalNat cs).bind fun n => if n ≤ 2 ^ 63 then some (-(n : Int)) else none
    else if c = '+' then
      (decimalNat cs).bind fun n => if n < 2 ^ 63 then some (n : Int) else none
    else
      (decimalNat (c :: cs)).bind fun n => if n < 2 ^ 63 then some (n : Int) else none

/-- The limit of the specification: the integer value of the `limit` query
parameter if it parses as a decimal integer and is `> 0`, and 20 otherwise. -/
def specLimit (query : List (String × String)) : Int :=
  match query.lookup "limit" with
  | none => 20
  | some v =>
    match decimalInt v.data with
    | some l => if l > 0 then l else 20
    | none => 20

/-- The offset of the specification: the integer value of the `offset` query
parameter if it parses and is `≥ 0`, and 0 otherwise. -/
def specOffset (query : List (String × String)) : Int :=
  match query.lookup "offset" with
  | none => 0
  | some v =>
    match decimalInt v.data with
    | some o => if o ≥ 0 then o else 0
    | none => 0

/-- The request body fails binding, in the words of the specification: it does
not decode, or the name is empty, or the email is empty or not a syntactically
valid address. -/
def bodyInvalid (isEmail : String → Bool) (c : Request) : Prop :=
  match c.body with
  | .failed _ => True
  | .value (name, email) => name = "" ∨ email = "" ∨ isEmail email = false

/-- The request body passes binding with the given name and email: it decodes
to them, both are non-empty and the email is a syntactically valid address. -/
def bodyValid (isEmail : String → Bool) (c : Request) (name email : String) : Prop :=
  c.body = .value (name, email) ∧ name ≠ "" ∧ email ≠ "" ∧ isEmail email = true

/-- The `id` path parameter is not parseable as an integer (a Go `int64`). -/
def idInvalid (c : Request) : Prop := decimalInt (c.Param "id").data = none

/-- The relation "equal field for field" between a response entry and an entity. -/
def sameFields (r : UserResponse) (u : User) : Prop :=
  r.ID = u.ID ∧ r.Name = u.Name ∧ r.Email = u.Email ∧
    r.CreatedAt = u.CreatedAt ∧ r.UpdatedAt = u.UpdatedAt

/-! ## Concrete repositories used to evaluate the handlers -/

/-- A repository over trivial storage whose every method fails with `e`. -/
def failingRepo (e : RepoError) : UserRepository Unit where
  CreateUser := fun st _ => (.error e, st)
  GetUserByID := fun st _ => (.error e, st)
  ListUsers := fun st _ _ => (.error e, st)
  UpdateUser := fun st _ => (.error e, st)
  DeleteUser := fun st _ => (some e, st)

/-- A repository over trivial storage whose every method succeeds, answering
with the entity `u` or the list `us`. -/
def fixedRepo (u : User) (us : List User) : UserRepository Unit where
  CreateUser := fun st _ => (.ok u, st)
  GetUserByID := fun st _ => (.ok u, st)
  ListUsers := fun st _ _ => (.ok us, st)
  UpdateUser := fun st _ => (.ok u, st)
  DeleteUser := fun st _ => (none, st)

/-- An address check used when evaluating the handlers on concrete requests:
it accepts exactly the strings that contain an `@`. -/
def containsAt (s : String) : Bool := s.data.contains '@'

/-- The request `GET|PUT|DELETE /users/:id` with the given `id` and decoded body. -/
def requestWithId (id : String) (body : Decoded (String × String)) : Request :=
  { params := [("id", id)], query := [], body := body }

/-- A second sample entity. -/
def grace : User :=
  { ID := 2, Name := "Grace", Email := "grace@example.com",
    CreatedAt := ⟨1700000100, 0⟩, UpdatedAt := ⟨1700000200, 0⟩ }

/-- A sample entity. -/
def ada : User :=
  { ID := 1, Name := "Ada", Email := "ada@example.com",
    CreatedAt := ⟨1700000000, 0⟩, UpdatedAt := ⟨1700000000, 0⟩ }

/-! ## Lemmas on `strconv` -/

theorem foldl_digits_ge (cs : List Char) (n : Nat) :
    n ≤ cs.foldl (fun n c => n * 10 + (c.toNat - 48)) n := by
  induction cs generalizing n with
  | nil => simp
  | cons c cs ih =>
    simp only [List.foldl_cons]
    exact le_trans (by omega) (ih _)

theorem parseUintLoop_ok_iff (cs : List Char) (n v : Nat) (hn : n ≤ 2 ^ 64 - 1) :
    parseUintLoop cs n = .ok v ↔
      (cs.all (fun c => 48 ≤ c.toNat ∧ c.toNat ≤ 57) = true ∧
        cs.foldl (fun n c => n * 10 + (c.toNat - 48)) n = v ∧ v ≤ 2 ^ 64 - 1) := by
  induction cs generalizing n with
  | nil =>
    simp only [parseUintLoop, List.all_nil, List.foldl_nil, true_and, Except.ok.injEq]
    constructor
    · intro h; subst h; exact ⟨rfl, hn⟩
    · intro h; exact h.1
  | cons c cs ih =>
    simp only [parseUintLoop, digitVal, List.all_cons, List.foldl_cons, Bool.and_eq_true,
      decide_eq_true_eq]
    by_cases hc : 48 ≤ c.toNat ∧ c.toNat ≤ 57
    · simp only [hc, and_self, if_true, true_and]
      have hge := foldl_digits_ge cs (n * 10 + (c.toNat - 48))
      by_cases h1 : n ≥ (2 ^ 64 - 1) / 10 + 1
      · simp only [h1, if_true]
        constructor
        · intro h; cases h
        · rintro ⟨_, h2, h3⟩
          exfalso
          norm_num at h1 h3
          omega
      · simp only [h1, if_false]
        by_cases h2 : n * 10 + (c.toNat - 48) > 2 ^ 64 - 1
        · simp only [h2, if_true]
          constructor
          · intro h; cases h
          · rintro ⟨_, h3, h4⟩
            exfalso
            omega
        · simp only [h2, if_false]
          exact ih _ (by omega)
    · simp only [hc, if_false]
      constructor
      · intro h; cases h
      · rintro ⟨⟨h, _⟩, _⟩
        exact absurd h (by simp [hc])

theorem ParseUint_ok_iff (s : List Char) (v : Nat) :
    ParseUint s = .ok v ↔ decimalNat s = some v ∧ v ≤ 2 ^ 64 - 1 := by
  unfold ParseUint decimalNat
  by_cases hs : s = []
  · simp [hs]
  · simp only [hs, if_false, ne_eq, not_false_eq_true, true_and]
    rw [parseUintLoop_ok_iff s 0 v (by norm_num)]
    by_cases hall : s.all (fun c => 48 ≤ c.toNat ∧ c.toNat ≤ 57) = true
    · rw [if_pos hall]
      constructor
      · rintro ⟨_, h2, h3⟩
        exact ⟨by rw [h2], h3⟩
      · rintro ⟨h2, h3⟩
        exact ⟨hall, by simpa using h2, h3⟩
    · rw [if_neg hall]
      constructor
      · rintro ⟨h, _⟩
        exact absurd h hall
      · rintro ⟨h, _⟩
        cases h

theorem ParseInt_eq_decimalInt (s : List Char) (v : Int) :
    ParseInt s = .ok v ↔ decimalInt s = some v := by
  cases s with
  | nil => simp [ParseInt, decimalInt]
  | cons c cs =>
    simp only [ParseInt, decimalInt]
    by_cases hm : c = '-'
    · subst hm
      simp only [or_true, if_true, true_and, not_true_eq_false, false_and, if_false]
      cases hp : ParseUint cs with
      | error e =>
        simp only [false_iff]
        cases hd : decimalNat cs with
        | none => simp
        | some n =>
          simp only [Option.some_bind]
          by_cases hn : n ≤ 9223372036854775808
          · have := (ParseUint_ok_iff cs n).2 ⟨hd, by omega⟩
            rw [hp] at this
            cases this
          · simp [hn]
      | ok un =>
        obtain ⟨hd, _⟩ := (ParseUint_ok_iff cs un).1 hp
        simp only [hd, Option.some_bind]
        by_cases hn : un ≤ 9223372036854775808
        · simp [hn, not_lt.2 hn]
        · simp [hn, not_le.1 hn]
    · by_cases hpl : c = '+'
      · subst hpl
        simp only [true_or, if_true, hm, if_false, not_false_eq_true, true_and, false_and]
        cases hp : ParseUint cs with
        | error e =>
          simp only [false_iff]
          cases hd : decimalNat cs with
          | none => simp
          | some n =>
            simp only [Option.some_bind]
            by_cases hn : n < 9223372036854775808
            · have := (ParseUint_ok_iff cs n).2 ⟨hd, by omega⟩
              rw [hp] at this
              cases this
            · simp [hn]
        | ok un =>
          obtain ⟨hd, _⟩ := (ParseUint_ok_iff cs un).1 hp
          simp only [hd, Option.some_bind]
          by_cases hn : un < 9223372036854775808
          · simp [hn, not_le.2 hn]
          · simp [hn, not_lt.1 hn]
      · simp only [hm, hpl, or_self, if_false, not_false_eq_true, true_and, false_and]
        cases hp : ParseUint (c :: cs) with
        | error e =>
          simp only [false_iff]
          cases hd : decimalNat (c :: cs) with
          | none => simp
          | some n =>
            simp only [Option.some_bind]
            by_cases hn : n < 9223372036854775808
            · have := (ParseUint_ok_iff (c :: cs) n).2 ⟨hd, by omega⟩
              rw [hp] at this
              cases this
            · simp [hn]
        | ok un =>
          obtain ⟨hd, _⟩ := (ParseUint_ok_iff (c :: cs) un).1 hp
          simp only [hd, Option.some_bind]
          by_cases hn : un < 9223372036854775808
          · simp [hn, not_le.2 hn]
          · simp [hn, not_lt.1 hn]

theorem ParseInt_error_of_decimalInt_none (s : List Char) (h : decimalInt s = none) :
    ∃ e, ParseInt s = .error e := by
  cases hp : ParseInt s with
  | error e => exact ⟨e, rfl⟩
  | ok v =>
    have := (ParseInt_eq_decimalInt s v).1 hp
    rw [h] at this
    cases this

theorem ShouldBindJSON_error_of_bodyInvalid (isEmail : String → Bool) (sn : String)
    (c : Request) (h : bodyInvalid isEmail c) :
    ∃ e, ShouldBindJSON isEmail sn c = .error e := by
  unfold bodyInvalid at h
  unfold ShouldBindJSON
  cases hb : c.body with
  | failed msg => exact ⟨_, rfl⟩
  | value a =>
    obtain ⟨name, email⟩ := a
    rw [hb] at h
    simp only at h
    simp only [validateRequired, validateRequiredEmail]
    by_cases hn : name = ""
    · simp [hn]
    · by_cases he : email = ""
      · simp [hn, he]
      · have hi : isEmail email = false := by
          rcases h with h | h | h
          · exact absurd h hn
          · exact absurd h he
          · exact h
        simp [hn, he, hi]

theorem ShouldBindJSON_ok_of_bodyValid (isEmail : String → Bool) (sn : String)
    (c : Request) (name email : String) (h : bodyValid isEmail c name email) :
    ShouldBindJSON isEmail sn c = .ok (name, email) := by
  obtain ⟨hb, hn, he, hi⟩ := h
  simp [ShouldBindJSON, hb, validateRequired, validateRequiredEmail, hn, he, hi]

theorem forall₂_sameFields_map (users : List User) :
    List.Forall₂ sameFields
      (users.map fun user =>
        ({ ID := user.ID, Name := user.Name, Email := user.Email,
           CreatedAt := user.CreatedAt, UpdatedAt := user.UpdatedAt } : UserResponse))
      users := by
  induction users with
  | nil => exact List.Forall₂.nil
  | cons u us ih => exact List.Forall₂.cons ⟨rfl, rfl, rfl, rfl, rfl⟩ ih

theorem listLimit_eq_specLimit (c : Request) : listLimit c = specLimit c.query := by
  unfold listLimit specLimit Request.DefaultQuery Atoi
  cases hq : c.query.lookup "limit" with
  | none => decide
  | some v =>
    simp only
    cases hp : ParseInt v.data with
    | error e =>
      cases hd : decimalInt v.data with
      | none => rfl
      | some l =>
        have := (ParseInt_eq_decimalInt v.data l).2 hd
        rw [hp] at this
        cases this
    | ok l =>
      rw [(ParseInt_eq_decimalInt v.data l).1 hp]

theorem listOffset_eq_specOffset (c : Request) : listOffset c = specOffset c.query := by
  unfold listOffset specOffset Request.DefaultQuery Atoi
  cases hq : c.query.lookup "offset" with
  | none => decide
  | some v =>
    simp only
    cases hp : ParseInt v.data with
    | error e =>
      cases hd : decimalInt v.data with
      | none => rfl
      | some l =>
        have := (ParseInt_eq_decimalInt v.data l).2 hd
        rw [hp] at this
        cases this
    | ok l =>
      rw [(ParseInt_eq_decimalInt v.data l).1 hp]

theorem listUsers_calls {σ : Type} (h : UserHandler σ) (st : σ) (c : Request) :
    (h.listUsers st c).calls = [RepoCall.ListUsers (listLimit c) (listOffset c)] := by
  unfold UserHandler.listUsers
  simp only
  split <;> rfl

/-! ## Claims -/

/-- C1: every `GET /users` request makes `listUsers` call `ListUsers(limit, offset)`
exactly once, where `limit` is the integer value of the `limit` query parameter
if it parses as a decimal integer and is `> 0` and 20 otherwise, and `offset` is
the integer value of the `offset` parameter if it parses and is `≥ 0` and 0
otherwise. An absent, empty, non-numeric, zero or negative `limit` gives 20;
`limit=-1` gives 20 and the response is not a 400. -/
theorem C1_listUsers_effective_limit_offset {σ : Type} (h : UserHandler σ) (st : σ)
    (c : Request) :
    (h.listUsers st c).calls = [RepoCall.ListUsers (specLimit c.query) (specOffset c.query)] ∧
    specLimit [] = 20 ∧ specLimit [("limit", "")] = 20 ∧ specLimit [("limit", "abc")] = 20 ∧
    specLimit [("limit", "0")] = 20 ∧ specLimit [("limit", "-1")] = 20 ∧
    specLimit [("limit", "2")] = 2 ∧ specOffset [] = 0 ∧ specOffset [("offset", "-3")] = 0 ∧
    specOffset [("offset", "0")] = 0 ∧ specOffset [("offset", "40")] = 40 ∧
    (∀ rest : List (String × String),
      (h.listUsers st { c with query := ("limit", "-1") :: rest }).calls =
          [RepoCall.ListUsers 20 (specOffset rest)] ∧
      (h.listUsers st { c with query := ("limit", "-1") :: rest }).response.status ≠
          StatusBadRequest) := by
  refine ⟨?_, by decide, by decide, by decide, by decide, by decide, by decide, by decide,
    by decide, by decide, by decide, ?_⟩
  · rw [listUsers_calls, listLimit_eq_specLimit, listOffset_eq_specOffset]
  · intro rest
    constructor
    · rw [listUsers_calls, listLimit_eq_specLimit, listOffset_eq_specOffset]
      have h1 : specLimit (("limit", "-1") :: rest) = 20 := by
        have hk : ("limit" == "limit") = true := by decide
        simp only [specLimit, List.lookup, hk]
        decide
      have h2 : specOffset (("limit", "-1") :: rest) = specOffset rest := by
        have hk : ("offset" == "limit") = false := by decide
        simp only [specOffset, List.lookup, hk]
      rw [h1, h2]
    · unfold UserHandler.listUsers
      simp only
      split <;> simp [StatusBadRequest, StatusOK, StatusInternalServerError]

/-- C2 as stated fails: when the repository fails with an error other than
"not found" (here a storage failure), `getUser` answers 404, not 500. -/
theorem C2_counterexample_other_error_is_404 :
    ((UserHandler.mk (failingRepo (.Other "connection refused")) containsAt).getUser ()
        (requestWithId "1" (.failed ""))).response.status = 404 ∧
    ((UserHandler.mk (failingRepo (.Other "connection refused")) containsAt).getUser ()
        (requestWithId "1" (.failed ""))).response.status ≠ 500 := by
  decide

/-- C2 (amended): for Get, an `id` that does not parse as an integer gives 400
without a repository call; EVERY repository error, "not found" or any other,
gives 404 with the fixed body `{"error": "User not found"}`; otherwise the
response is 200 with the entity, field for field. -/
theorem C2_getUser_status_mapping {σ : Type} (h : UserHandler σ) (st : σ) (c : Request) :
    (idInvalid c →
      (h.getUser st c).response = ⟨400, errorBody "Invalid user ID"⟩ ∧
      (h.getUser st c).calls = []) ∧
    (∀ (id : Int) (e : RepoError) (st' : σ),
      decimalInt (c.Param "id").data = some id →
      h.userRepo.GetUserByID st id = (.error e, st') →
      (h.getUser st c).response = ⟨404, errorBody "User not found"⟩) ∧
    (∀ (id : Int) (u : User) (st' : σ),
      decimalInt (c.Param "id").data = some id →
      h.userRepo.GetUserByID st id = (.ok u, st') →
      ∃ r, (h.getUser st c).response = ⟨200, .user r⟩ ∧ sameFields r u) := by
  refine ⟨?_, ?_, ?_⟩
  · intro hid
    obtain ⟨e, he⟩ := ParseInt_error_of_decimalInt_none _ hid
    constructor <;> simp [UserHandler.getUser, he, StatusBadRequest]
  · intro id e st' hid hrepo
    have hp := (ParseInt_eq_decimalInt _ id).2 hid
    simp only [UserHandler.getUser, hp, hrepo]
    rfl
  · intro id u st' hid hrepo
    have hp := (ParseInt_eq_decimalInt _ id).2 hid
    simp only [UserHandler.getUser, hp, hrepo]
    exact ⟨_, rfl, rfl, rfl, rfl, rfl, rfl⟩

/-- Witness for C2: the three cases at the ids `"abc"` and `"1"`. -/
theorem C2_getUser_status_mapping_witness :
    ((UserHandler.mk (fixedRepo ada []) containsAt).getUser ()
        (requestWithId "abc" (.failed ""))).response = ⟨400, errorBody "Invalid user ID"⟩ ∧
    ((UserHandler.mk (failingRepo .NotFound) containsAt).getUser ()
        (requestWithId "1" (.failed ""))).response = ⟨404, errorBody "User not found"⟩ ∧
    (∃ r, ((UserHandler.mk (fixedRepo ada []) containsAt).getUser ()
        (requestWithId "1" (.failed ""))).response = ⟨200, .user r⟩ ∧ sameFields r ada) :=
  ⟨((C2_getUser_status_mapping (UserHandler.mk (fixedRepo ada []) containsAt) ()
      (requestWithId "abc" (.failed ""))).1 (by unfold idInvalid; decide)).1,
   (C2_getUser_status_mapping (UserHandler.mk (failingRepo .NotFound) containsAt) ()
      (requestWithId "1" (.failed ""))).2.1 1 .NotFound () (by decide) rfl,
   (C2_getUser_status_mapping (UserHandler.mk (fixedRepo ada []) containsAt) ()
      (requestWithId "1" (.failed ""))).2.2 1 ada () (by decide) rfl⟩

/-- C3: for Create, Get, Update and Delete, a request whose input validation
fails (the body fails binding for Create and Update: it does not decode, the
name is empty, or the email is empty or not a valid address; the `id` does not
parse as an integer for Get, Update and Delete) is answered with status 400, no
repository method is invoked and the storage state is unchanged. In particular
the body `{"name":"","email":"not-an-email"}` is refused with 400 by Create
whatever the address check. -/
theorem C3_validation_failure_400_no_repository_call {σ : Type} (h : UserHandler σ)
    (st : σ) (c : Request) :
    (bodyInvalid h.isEmail c →
      (h.createUser st c).response.status = 400 ∧ (h.createUser st c).calls = [] ∧
      (h.createUser st c).state = st) ∧
    (idInvalid c →
      ((h.getUser st c).response.status = 400 ∧ (h.getUser st c).calls = [] ∧
        (h.getUser st c).state = st) ∧
      ((h.updateUser st c).response.status = 400 ∧ (h.updateUser st c).calls = [] ∧
        (h.updateUser st c).state = st) ∧
      ((h.deleteUser st c).response.status = 400 ∧ (h.deleteUser st c).calls = [] ∧
        (h.deleteUser st c).state = st)) ∧
    (bodyInvalid h.isEmail c →
      (h.updateUser st c).response.status = 400 ∧ (h.updateUser st c).calls = [] ∧
      (h.updateUser st c).state = st) ∧
    ((h.createUser st { c with body := .value ("", "not-an-email") }).response.status = 400 ∧
      (h.createUser st { c with body := .value ("", "not-an-email") }).calls = []) := by
  refine ⟨?_, ?_, ?_, ?_⟩
  · intro hb
    obtain ⟨e, he⟩ := ShouldBindJSON_error_of_bodyInvalid h.isEmail "CreateUserRequest" c hb
    simp [UserHandler.createUser, he, StatusBadRequest]
  · intro hid
    obtain ⟨e, he⟩ := ParseInt_error_of_decimalInt_none _ hid
    simp [UserHandler.getUser, UserHandler.updateUser, UserHandler.deleteUser, he,
      StatusBadRequest]
  · intro hb
    obtain ⟨e, he⟩ := ShouldBindJSON_error_of_bodyInvalid h.isEmail "UpdateUserRequest" c hb
    cases hp : ParseInt (c.Param "id").data with
    | error e' => simp [UserHandler.updateUser, hp, StatusBadRequest]
    | ok id => simp [UserHandler.updateUser, hp, he, StatusBadRequest]
  · have hb : bodyInvalid h.isEmail { c with body := .value ("", "not-an-email") } := by
      simp [bodyInvalid]
    obtain ⟨e, he⟩ := ShouldBindJSON_error_of_bodyInvalid h.isEmail "CreateUserRequest" _ hb
    simp [UserHandler.createUser, he, StatusBadRequest]

/-- Witness for C3: an empty name with a malformed email for Create and Update,
and the id `"12x"` for Get, Update and Delete, against a repository that would
succeed. -/
theorem C3_validation_failure_400_no_repository_call_witness :
    ((UserHandler.mk (fixedRepo ada []) containsAt).createUser ()
        (requestWithId "1" (.value ("", "not-an-email")))).response.status = 400 ∧
    ((UserHandler.mk (fixedRepo ada []) containsAt).createUser ()
        (requestWithId "1" (.value ("", "not-an-email")))).calls = [] ∧
    ((UserHandler.mk (fixedRepo ada []) containsAt).getUser ()
        (requestWithId "12x" (.value ("Ada", "ada@example.com")))).calls = [] ∧
    ((UserHandler.mk (fixedRepo ada []) containsAt).updateUser ()
        (requestWithId "12x" (.value ("Ada", "ada@example.com")))).response.status = 400 ∧
    ((UserHandler.mk (fixedRepo ada []) containsAt).deleteUser ()
        (requestWithId "12x" (.value ("Ada", "ada@example.com")))).calls = [] ∧
    ((UserHandler.mk (fixedRepo ada []) containsAt).updateUser ()
        (requestWithId "1" (.value ("Ada", "not-an-email")))).calls = [] :=
  ⟨((C3_validation_failure_400_no_repository_call (UserHandler.mk (fixedRepo ada []) containsAt)
      () (requestWithId "1" (.value ("", "not-an-email")))).1
        (by simp [bodyInvalid, requestWithId])).1,
   ((C3_validation_failure_400_no_repository_call (UserHandler.mk (fixedRepo ada []) containsAt)
      () (requestWithId "1" (.value ("", "not-an-email")))).1
        (by simp [bodyInvalid, requestWithId])).2.1,
   ((C3_validation_failure_400_no_repository_call (UserHandler.mk (fixedRepo ada []) containsAt)
      () (requestWithId "12x" (.value ("Ada", "ada@example.com")))).2.1
        (by unfold idInvalid; decide)).1.2.1,
   ((C3_validation_failure_400_no_repository_call (UserHandler.mk (fixedRepo ada []) containsAt)
      () (requestWithId "12x" (.value ("Ada", "ada@example.com")))).2.1
        (by unfold idInvalid; decide)).2.1.1,
   ((C3_validation_failure_400_no_repository_call (UserHandler.mk (fixedRepo ada []) containsAt)
      () (requestWithId "12x" (.value ("Ada", "ada@example.com")))).2.1
        (by unfold idInvalid; decide)).2.2.2.1,
   ((C3_validation_failure_400_no_repository_call (UserHandler.mk (fixedRepo ada []) containsAt)
      () (requestWithId "1" (.value ("Ada", "not-an-email")))).2.2.1
        (by simp [bodyInvalid, requestWithId]; decide)).2.1⟩

/-- C4: for Create, List, Update and Delete, whenever the repository call
returns an error the response is 500 with a fixed, operation-specific body that
does not depend on the error value; so for any two repository errors `e1`, `e2`
the responses to the same request are equal. -/
theorem C4_repository_error_fixed_500 {σ : Type} (h : UserHandler σ) (st : σ)
    (c : Request) :
    (∀ (name email : String) (e : RepoError) (st' : σ),
      bodyValid h.isEmail c name email →
      h.userRepo.CreateUser st ⟨0, name, email, Time.zero, Time.zero⟩ = (.error e, st') →
      (h.createUser st c).response = ⟨500, errorBody "Failed to create user"⟩) ∧
    (∀ (e : RepoError) (st' : σ),
      h.userRepo.ListUsers st (specLimit c.query) (specOffset c.query) = (.error e, st') →
      (h.listUsers st c).response = ⟨500, errorBody "Failed to list users"⟩) ∧
    (∀ (id : Int) (name email : String) (e : RepoError) (st' : σ),
      decimalInt (c.Param "id").data = some id →
      bodyValid h.isEmail c name email →
      h.userRepo.UpdateUser st ⟨id, name, email, Time.zero, Time.zero⟩ = (.error e, st') →
      (h.updateUser st c).response = ⟨500, errorBody "Failed to update user"⟩) ∧
    (∀ (id : Int) (e : RepoError) (st' : σ),
      decimalInt (c.Param "id").data = some id →
      h.userRepo.DeleteUser st id = (some e, st') →
      (h.deleteUser st c).response = ⟨500, errorBody "Failed to delete user"⟩) ∧
    (∀ e1 e2 : RepoError,
      ((UserHandler.mk (failingRepo e1) h.isEmail).createUser () c).response =
        ((UserHandler.mk (failingRepo e2) h.isEmail).createUser () c).response ∧
      ((UserHandler.mk (failingRepo e1) h.isEmail).listUsers () c).response =
        ((UserHandler.mk (failingRepo e2) h.isEmail).listUsers () c).response ∧
      ((UserHandler.mk (failingRepo e1) h.isEmail).updateUser () c).response =
        ((UserHandler.mk (failingRepo e2) h.isEmail).updateUser () c).response ∧
      ((UserHandler.mk (failingRepo e1) h.isEmail).deleteUser () c).response =
        ((UserHandler.mk (failingRepo e2) h.isEmail).deleteUser () c).response) := by
  refine ⟨?_, ?_, ?_, ?_, ?_⟩
  · intro name email e st' hv hrepo
    have hb := ShouldBindJSON_ok_of_bodyValid h.isEmail "CreateUserRequest" c name email hv
    simp only [UserHandler.createUser, hb, hrepo]
    rfl
  · intro e st' hrepo
    rw [← listLimit_eq_specLimit, ← listOffset_eq_specOffset] at hrepo
    simp only [UserHandler.listUsers, hrepo]
    rfl
  · intro id name email e st' hid hv hrepo
    have hp := (ParseInt_eq_decimalInt _ id).2 hid
    have hb := ShouldBindJSON_ok_of_bodyValid h.isEmail "UpdateUserRequest" c name email hv
    simp only [UserHandler.updateUser, hp, hb, hrepo]
    rfl
  · intro id e st' hid hrepo
    have hp := (ParseInt_eq_decimalInt _ id).2 hid
    simp only [UserHandler.deleteUser, hp, hrepo]
    rfl
  · intro e1 e2
    refine ⟨?_, ?_, ?_, ?_⟩
    · simp only [UserHandler.createUser, failingRepo]
      cases ShouldBindJSON h.isEmail "CreateUserRequest" c <;> rfl
    · rfl
    · simp only [UserHandler.updateUser, failingRepo]
      cases ParseInt (c.Param "id").data with
      | error e => rfl
      | ok id => cases ShouldBindJSON h.isEmail "UpdateUserRequest" c <;> rfl
    · simp only [UserHandler.deleteUser, failingRepo]
      cases ParseInt (c.Param "id").data <;> rfl

/-- Witness for C4: a repository failing with an internal detail, on valid
requests for the four operations. -/
theorem C4_repository_error_fixed_500_witness :
    ((UserHandler.mk (failingRepo (.Other "pq: password authentication failed")) containsAt).createUser
        () (requestWithId "7" (.value ("Ada", "ada@example.com")))).response =
      ⟨500, errorBody "Failed to create user"⟩ ∧
    ((UserHandler.mk (failingRepo (.Other "pq: password authentication failed")) containsAt).listUsers
        () (requestWithId "7" (.value ("Ada", "ada@example.com")))).response =
      ⟨500, errorBody "Failed to list users"⟩ ∧
    ((UserHandler.mk (failingRepo (.Other "pq: password authentication failed")) containsAt).updateUser
        () (requestWithId "7" (.value ("Ada", "ada@example.com")))).response =
      ⟨500, errorBody "Failed to update user"⟩ ∧
    ((UserHandler.mk (failingRepo (.Other "pq: password authentication failed")) containsAt).deleteUser
        () (requestWithId "7" (.value ("Ada", "ada@example.com")))).response =
      ⟨500, errorBody "Failed to delete user"⟩ :=
  ⟨(C4_repository_error_fixed_500
      (UserHandler.mk (failingRepo (.Other "pq: password authentication failed")) containsAt) ()
      (requestWithId "7" (.value ("Ada", "ada@example.com")))).1 "Ada" "ada@example.com"
      (.Other "pq: password authentication failed") ()
      ⟨rfl, by decide, by decide, by decide⟩ rfl,
   (C4_repository_error_fixed_500
      (UserHandler.mk (failingRepo (.Other "pq: password authentication failed")) containsAt) ()
      (requestWithId "7" (.value ("Ada", "ada@example.com")))).2.1
      (.Other "pq: password authentication failed") () rfl,
   (C4_repository_error_fixed_500
      (UserHandler.mk (failingRepo (.Other "pq: password authentication failed")) containsAt) ()
      (requestWithId "7" (.value ("Ada", "ada@example.com")))).2.2.1 7 "Ada" "ada@example.com"
      (.Other "pq: password authentication failed") () (by decide)
      ⟨rfl, by decide, by decide, by decide⟩ rfl,
   (C4_repository_error_fixed_500
      (UserHandler.mk (failingRepo (.Other "pq: password authentication failed")) containsAt) ()
      (requestWithId "7" (.value ("Ada", "ada@example.com")))).2.2.2.1 7
      (.Other "pq: password authentication failed") () (by decide) rfl⟩

/-- C5 as stated fails: when the repository reports the id as absent
(`NotFound`), `PUT /users/:id` and `DELETE /users/:id` answer 500, not 404. -/
theorem C5_counterexample_not_found_is_500 :
    ((UserHandler.mk (failingRepo .NotFound) containsAt).updateUser ()
        (requestWithId "7" (.value ("Ada", "ada@example.com")))).response.status = 500 ∧
    ((UserHandler.mk (failingRepo .NotFound) containsAt).deleteUser ()
        (requestWithId "7" (.value ("Ada", "ada@example.com")))).response.status = 500 ∧
    ((UserHandler.mk (failingRepo .NotFound) containsAt).updateUser ()
        (requestWithId "7" (.value ("Ada", "ada@example.com")))).response.status ≠ 404 ∧
    ((UserHandler.mk (failingRepo .NotFound) containsAt).deleteUser ()
        (requestWithId "7" (.value ("Ada", "ada@example.com")))).response.status ≠ 404 := by
  decide

/-- C5 (amended): for `PUT /users/:id` and `DELETE /users/:id`, when the
repository reports that the id is absent (`NotFound`), the response status is
500, with the same generic body as for any other repository error. -/
theorem C5_not_found_on_update_delete_is_500 {σ : Type} (h : UserHandler σ) (st : σ)
    (c : Request) :
    (∀ (id : Int) (name email : String) (st' : σ),
      decimalInt (c.Param "id").data = some id →
      bodyValid h.isEmail c name email →
      h.userRepo.UpdateUser st ⟨id, name, email, Time.zero, Time.zero⟩ =
        (.error .NotFound, st') →
      (h.updateUser st c).response = ⟨500, errorBody "Failed to update user"⟩) ∧
    (∀ (id : Int) (st' : σ),
      decimalInt (c.Param "id").data = some id →
      h.userRepo.DeleteUser st id = (some .NotFound, st') →
      (h.deleteUser st c).response = ⟨500, errorBody "Failed to delete user"⟩) := by
  refine ⟨?_, ?_⟩
  · intro id name email st' hid hv hrepo
    have hp := (ParseInt_eq_decimalInt _ id).2 hid
    have hb := ShouldBindJSON_ok_of_bodyValid h.isEmail "UpdateUserRequest" c name email hv
    simp only [UserHandler.updateUser, hp, hb, hrepo]
    rfl
  · intro id st' hid hrepo
    have hp := (ParseInt_eq_decimalInt _ id).2 hid
    simp only [UserHandler.deleteUser, hp, hrepo]
    rfl

/-- Witness for C5 (amended): id 7 absent from the repository. -/
theorem C5_not_found_on_update_delete_is_500_witness :
    ((UserHandler.mk (failingRepo .NotFound) containsAt).updateUser ()
        (requestWithId "7" (.value ("Ada", "ada@example.com")))).response =
      ⟨500, errorBody "Failed to update user"⟩ ∧
    ((UserHandler.mk (failingRepo .NotFound) containsAt).deleteUser ()
        (requestWithId "7" (.failed "EOF"))).response =
      ⟨500, errorBody "Failed to delete user"⟩ :=
  ⟨(C5_not_found_on_update_delete_is_500 (UserHandler.mk (failingRepo .NotFound) containsAt) ()
      (requestWithId "7" (.value ("Ada", "ada@example.com")))).1 7 "Ada" "ada@example.com" ()
      (by decide) ⟨rfl, by decide, by decide, by decide⟩ rfl,
   (C5_not_found_on_update_delete_is_500 (UserHandler.mk (failingRepo .NotFound) containsAt) ()
      (requestWithId "7" (.failed "EOF"))).2 7 () (by decide) rfl⟩

/-- C6: when the repository call of `listUsers` succeeds with a list of users,
the response is 200 with a `users` array that has exactly as many entries as
the repository returned, in the same order, each equal field for field to the
corresponding user, together with `limit` and `offset` equal to the effective
values passed to the repository; an empty result gives an empty array. -/
theorem C6_listUsers_success_body {σ : Type} (h : UserHandler σ) (st : σ) (c : Request)
    (users : List User) (st' : σ)
    (hrepo : h.userRepo.ListUsers st (specLimit c.query) (specOffset c.query) =
      (.ok users, st')) :
    ∃ rs : List UserResponse,
      (h.listUsers st c).response =
        ⟨200, .H [("users", .users rs), ("limit", .int (specLimit c.query)),
          ("offset", .int (specOffset c.query))]⟩ ∧
      (h.listUsers st c).calls =
        [RepoCall.ListUsers (specLimit c.query) (specOffset c.query)] ∧
      rs.length = users.length ∧
      List.Forall₂ sameFields rs users ∧
      (users = [] → rs = []) := by
  have hrepo' := hrepo
  rw [← listLimit_eq_specLimit, ← listOffset_eq_specOffset] at hrepo'
  refine ⟨users.map fun user =>
    ({ ID := user.ID, Name := user.Name, Email := user.Email,
       CreatedAt := user.CreatedAt, UpdatedAt := user.UpdatedAt } : UserResponse),
    ?_, ?_, ?_, forall₂_sameFields_map users, ?_⟩
  · simp only [UserHandler.listUsers, hrepo']
    rw [listLimit_eq_specLimit, listOffset_eq_specOffset]
    rfl
  · rw [listUsers_calls, listLimit_eq_specLimit, listOffset_eq_specOffset]
  · simp
  · intro hu
    simp [hu]

/-- Witness for C6: `GET /users?limit=2&offset=0` with a two-element result
returns exactly two entries and echoes limit 2, offset 0. -/
theorem C6_listUsers_success_body_witness :
    ∃ rs : List UserResponse,
      ((UserHandler.mk (fixedRepo ada [ada, grace]) containsAt).listUsers ()
          ⟨[], [("limit", "2"), ("offset", "0")], .failed ""⟩).response =
        ⟨200, .H [("users", .users rs), ("limit", .int 2), ("offset", .int 0)]⟩ ∧
      rs.length = 2 := by
  obtain ⟨rs, h1, _, h3, _, _⟩ :=
    C6_listUsers_success_body (UserHandler.mk (fixedRepo ada [ada, grace]) containsAt) ()
      ⟨[], [("limit", "2"), ("offset", "0")], .failed ""⟩ [ada, grace] () rfl
  exact ⟨rs, h1, h3⟩

/-- C7: when validation passes and the repository call succeeds, Create
responds 201 and Get and Update respond 200, each with a body equal field for
field (id, name, email, created_at, updated_at) to the entity the repository
returned; Delete responds 200 with a confirmation message. -/
theorem C7_success_responses {σ : Type} (h : UserHandler σ) (st : σ) (c : Request) :
    (∀ (name email : String) (u : User) (st' : σ),
      bodyValid h.isEmail c name email →
      h.userRepo.CreateUser st ⟨0, name, email, Time.zero, Time.zero⟩ = (.ok u, st') →
      ∃ r, (h.createUser st c).response = ⟨201, .user r⟩ ∧ sameFields r u) ∧
    (∀ (id : Int) (u : User) (st' : σ),
      decimalInt (c.Param "id").data = some id →
      h.userRepo.GetUserByID st id = (.ok u, st') →
      ∃ r, (h.getUser st c).response = ⟨200, .user r⟩ ∧ sameFields r u) ∧
    (∀ (id : Int) (name email : String) (u : User) (st' : σ),
      decimalInt (c.Param "id").data = some id →
      bodyValid h.isEmail c name email →
      h.userRepo.UpdateUser st ⟨id, name, email, Time.zero, Time.zero⟩ = (.ok u, st') →
      ∃ r, (h.updateUser st c).response = ⟨200, .user r⟩ ∧ sameFields r u) ∧
    (∀ (id : Int) (st' : σ),
      decimalInt (c.Param "id").data = some id →
      h.userRepo.DeleteUser st id = (none, st') →
      (h.deleteUser st c).response =
        ⟨200, .H [("message", .str "User deleted successfully")]⟩) := by
  refine ⟨?_, ?_, ?_, ?_⟩
  · intro name email u st' hv hrepo
    have hb := ShouldBindJSON_ok_of_bodyValid h.isEmail "CreateUserRequest" c name email hv
    simp only [UserHandler.createUser, hb, hrepo]
    exact ⟨_, rfl, rfl, rfl, rfl, rfl, rfl⟩
  · intro id u st' hid hrepo
    have hp := (ParseInt_eq_decimalInt _ id).2 hid
    simp only [UserHandler.getUser, hp, hrepo]
    exact ⟨_, rfl, rfl, rfl, rfl, rfl, rfl⟩
  · intro id name email u st' hid hv hrepo
    have hp := (ParseInt_eq_decimalInt _ id).2 hid
    have hb := ShouldBindJSON_ok_of_bodyValid h.isEmail "UpdateUserRequest" c name email hv
    simp only [UserHandler.updateUser, hp, hb, hrepo]
    exact ⟨_, rfl, rfl, rfl, rfl, rfl, rfl⟩
  · intro id st' hid hrepo
    have hp := (ParseInt_eq_decimalInt _ id).2 hid
    simp only [UserHandler.deleteUser, hp, hrepo]
    rfl

/-- Witness for C7: the body `{"name":"Ada","email":"ada@example.com"}` and the
id 1, against a repository answering with the entity `ada`. -/
theorem C7_success_responses_witness :
    (∃ r, ((UserHandler.mk (fixedRepo ada []) containsAt).createUser ()
        (requestWithId "1" (.value ("Ada", "ada@example.com")))).response =
          ⟨201, .user r⟩ ∧ sameFields r ada) ∧
    (∃ r, ((UserHandler.mk (fixedRepo ada []) containsAt).getUser ()
        (requestWithId "1" (.value ("Ada", "ada@example.com")))).response =
          ⟨200, .user r⟩ ∧ sameFields r ada) ∧
    (∃ r, ((UserHandler.mk (fixedRepo ada []) containsAt).updateUser ()
        (requestWithId "1" (.value ("Ada", "ada@example.com")))).response =
          ⟨200, .user r⟩ ∧ sameFields r ada) ∧
    ((UserHandler.mk (fixedRepo ada []) containsAt).deleteUser ()
        (requestWithId "1" (.value ("Ada", "ada@example.com")))).response =
      ⟨200, .H [("message", .str "User deleted successfully")]⟩ :=
  ⟨(C7_success_responses (UserHandler.mk (fixedRepo ada []) containsAt) ()
      (requestWithId "1" (.value ("Ada", "ada@example.com")))).1 "Ada" "ada@example.com" ada ()
      ⟨rfl, by decide, by decide, by decide⟩ rfl,
   (C7_success_responses (UserHandler.mk (fixedRepo ada []) containsAt) ()
      (requestWithId "1" (.value ("Ada", "ada@example.com")))).2.1 1 ada () (by decide) rfl,
   (C7_success_responses (UserHandler.mk (fixedRepo ada []) containsAt) ()
      (requestWithId "1" (.value ("Ada", "ada@example.com")))).2.2.1 1 "Ada" "ada@example.com"
      ada () (by decide) ⟨rfl, by decide, by decide, by decide⟩ rfl,
   (C7_success_responses (UserHandler.mk (fixedRepo ada []) containsAt) ()
      (requestWithId "1" (.value ("Ada", "ada@example.com")))).2.2.2 1 () (by decide) rfl⟩

/-- C8 as stated fails: when serving ends because of a graceful shutdown,
`Start` does not return nil; it returns the sentinel `http.ErrServerClosed`. -/
theorem C8_counterexample_start_after_shutdown_not_nil :
    Start .gracefulShutdown ≠ none ∧ Start .gracefulShutdown = some .ErrServerClosed := by
  decide

/-- C8 (amended): `HTTPServer.Start` returns exactly what `ListenAndServe`
returns, which is never nil: the sentinel `http.ErrServerClosed` when serving
ends because of a graceful shutdown, and the underlying listener error
otherwise. The `serve` command is what tells the two apart: it treats
`ErrServerClosed` as a normal end and any other error as fatal. -/
theorem C8_start_returns_listen_and_serve_error (ending : ServeEnd) :
    Start ending = ListenAndServe ending ∧
    Start ending ≠ none ∧
    Start .gracefulShutdown = some .ErrServerClosed ∧
    (∀ msg : String, Start (.listenerError msg) = some (.Other msg)) ∧
    serveIsFatal .gracefulShutdown = false ∧
    (∀ msg : String, serveIsFatal (.listenerError msg) = true) := by
  refine ⟨rfl, ?_, rfl, fun _ => rfl, rfl, fun _ => ?_⟩
  · cases ending <;> simp [Start, ListenAndServe]
  · simp [serveIsFatal, Start, ListenAndServe]

/-- C9 as stated fails: the route table is not the six entries under
`/api/v1`; the health check is registered as `GET /health`, outside the
versioned base, and there is no `GET /api/v1/health`. -/
theorem C9_counterexample_health_outside_api_v1 :
    (setupRoutes Engine.new).routes ≠ specRoutes ∧
    (⟨"GET", "/health", .healthCheck⟩ : Route) ∈ (setupRoutes Engine.new).routes ∧
    (⟨"GET", "/api/v1/health", .healthCheck⟩ : Route) ∉ (setupRoutes Engine.new).routes ∧
    ¬ (∀ r ∈ (setupRoutes Engine.new).routes, underApiV1 r = true) := by
  decide

/-- C9 (amended): the route table built by `setupRoutes` consists of exactly six
entries, each bound to the matching handler: the five user routes under the
versioned base `/api/v1` (`POST /users`, `GET /users`, `GET /users/:id`,
`PUT /users/:id`, `DELETE /users/:id`) and the health check as `GET /health` at
the root, outside the versioned base. -/
theorem C9_route_table :
    (setupRoutes Engine.new).routes =
      [⟨"POST", "/api/v1/users", .createUser⟩, ⟨"GET", "/api/v1/users", .listUsers⟩,
       ⟨"GET", "/api/v1/users/:id", .getUser⟩, ⟨"PUT", "/api/v1/users/:id", .updateUser⟩,
       ⟨"DELETE", "/api/v1/users/:id", .deleteUser⟩, ⟨"GET", "/health", .healthCheck⟩] ∧
    (setupRoutes Engine.new).routes.length = 6 ∧
    (∀ r ∈ (setupRoutes Engine.new).routes,
      r.handler ≠ .healthCheck → underApiV1 r = true) ∧
    (∀ r ∈ (setupRoutes Engine.new).routes,
      r.handler = .healthCheck → r.method = "GET" ∧ r.path = "/health") := by
  decide

theorem NewCLI_start (d : WeakDecoder) (env : List (String × String)) :
    NewCLI d (World.start env) =
      some ({ config := Config.zero,
              rootCommand := { Use := "", Version := "",
                               persistentFlags := (SetCobraFlags [] Viper.new).1 } },
            { env := env,
              viper := (SetCobraFlags []
                { automaticEnv := true, envKeyReplacer := some ('_', '.'), pflags := [] }).2,
              rootFlags := (SetCobraFlags [] Viper.new).1,
              configInstance := some Config.zero }) := by
  rfl

/-- C10 evaluated on the code: whatever the environment holds, the `Config`
that `NewCLI` resolves from the container, and that `NewHTTPServer` receives
afterwards, is the zero value (`server.host = ""`, `server.port = 0`, listen
address `":0"`), not the documented defaults: `NewConfig` unmarshals before
`SetCobraFlags` has bound any flag, so viper knows no key, and the instance is
cached. The flags themselves carry the documented defaults and are bound to the
keys of the same name, and unmarshalling after the binding, with no
environment variable and no flag set, yields exactly those defaults. -/
theorem C10_resolved_config_is_zero_value (d : WeakDecoder) (env : List (String × String)) :
    ∃ (cli : CLI) (w1 : World) (srv : HTTPServer) (w2 : World),
      NewCLI d (World.start env) = some (cli, w1) ∧
      NewHTTPServer d w1 = some (srv, w2) ∧
      cli.config = Config.zero ∧ srv.config = Config.zero ∧
      w2.configInstance = some Config.zero ∧
      cli.config.Server.Host = "" ∧ cli.config.Server.Port = 0 ∧ srv.Addr = ":0" ∧
      documentedDefaults.Server.Host = "localhost" ∧ documentedDefaults.Server.Port = 8080 ∧
      cli.config ≠ documentedDefaults ∧
      cli.rootCommand.persistentFlags.map (fun f => (f.name, f.defValue)) =
        [("server.host", .str "localhost"), ("server.port", .int 8080),
         ("server.read_timeout", .int 30), ("server.write_timeout", .int 30),
         ("database.host", .str "localhost"), ("database.port", .int 5432),
         ("database.user", .str "postgres"), ("database.password", .str "postgres"),
         ("database.database", .str "do_template_api"), ("database.ssl_mode", .str "disable"),
         ("database.max_open_conns", .int 25), ("database.max_idle_conns", .int 25),
         ("database.conn_max_lifetime", .int 300), ("logger.level", .str "info"),
         ("logger.format", .str "console"), ("logger.output", .str "stdout"),
         ("logger.no_color", .bool false), ("app.name", .str "do-template-worker"),
         ("app.version", .str "1.0.0"), ("app.environment", .str "development"),
         ("app.debug", .bool false)] ∧
      w1.viper.pflags = cli.rootCommand.persistentFlags.map (fun f => (f.name, f.name)) ∧
      (NewConfig d w1.viper w1.rootFlags []).1 = some documentedDefaults := by
  refine ⟨_, _, _, _, NewCLI_start d env, rfl, rfl, rfl, rfl, rfl, rfl, ?_, rfl, rfl, ?_,
    ?_, ?_, ?_⟩
  · decide
  · decide
  · decide
  · rfl
  · rfl

/-- C12: the entity handed to the repository carries exactly the validated
request data. For every Create request that passes validation, the only
repository call is `CreateUser` with a `User` whose `Name` and `Email` are the
request body's, whose `ID` is 0 and whose timestamps are zero (the body has no
id field, so the id is never client-supplied). For every Update request that
passes validation, the only repository call is `UpdateUser` with a `User`
whose `ID` is the integer parsed from the `id` path parameter and whose `Name`
and `Email` are the request body's (its timestamps are zero). This holds whatever the repository
answers. -/
theorem C12_entity_handed_to_repository {σ : Type} (h : UserHandler σ) (st : σ)
    (c : Request) :
    (∀ (name email : String),
      bodyValid h.isEmail c name email →
      (h.createUser st c).calls =
        [RepoCall.CreateUser
          { ID := 0, Name := name, Email := email,
            CreatedAt := Time.zero, UpdatedAt := Time.zero }]) ∧
    (∀ (id : Int) (name email : String),
      decimalInt (c.Param "id").data = some id →
      bodyValid h.isEmail c name email →
      (h.updateUser st c).calls =
        [RepoCall.UpdateUser
          { ID := id, Name := name, Email := email,
            CreatedAt := Time.zero, UpdatedAt := Time.zero }]) := by
  refine ⟨?_, ?_⟩
  · intro name email hv
    have hb := ShouldBindJSON_ok_of_bodyValid h.isEmail "CreateUserRequest" c name email hv
    simp only [UserHandler.createUser, hb]
    split <;> rfl
  · intro id name email hid hv
    have hp := (ParseInt_eq_decimalInt _ id).2 hid
    have hb := ShouldBindJSON_ok_of_bodyValid h.isEmail "UpdateUserRequest" c name email hv
    simp only [UserHandler.updateUser, hp, hb]
    split <;> rfl

/-- Witness for C12: the body `{"name":"Ada","email":"ada@example.com"}` on
Create, and on Update of the id `"42"`, against a repository that fails. -/
theorem C12_entity_handed_to_repository_witness :
    ((UserHandler.mk (failingRepo .NotFound) containsAt).createUser ()
        (requestWithId "42" (.value ("Ada", "ada@example.com")))).calls =
      [RepoCall.CreateUser ⟨0, "Ada", "ada@example.com", Time.zero, Time.zero⟩] ∧
    ((UserHandler.mk (failingRepo .NotFound) containsAt).updateUser ()
        (requestWithId "42" (.value ("Ada", "ada@example.com")))).calls =
      [RepoCall.UpdateUser ⟨42, "Ada", "ada@example.com", Time.zero, Time.zero⟩] :=
  ⟨(C12_entity_handed_to_repository (UserHandler.mk (failingRepo .NotFound) containsAt) ()
      (requestWithId "42" (.value ("Ada", "ada@example.com")))).1 "Ada" "ada@example.com"
      ⟨rfl, by decide, by decide, by decide⟩,
   (C12_entity_handed_to_repository (UserHandler.mk (failingRepo .NotFound) containsAt) ()
      (requestWithId "42" (.value ("Ada", "ada@example.com")))).2 42 "Ada" "ada@example.com"
      (by decide) ⟨rfl, by decide, by decide, by decide⟩⟩

/-! ## Lemmas on the container -/

theorem consistent_invoked_le {chain : List ServiceId} {c : Container}
    (h : Consistent chain c) (x : ServiceId) : c.invoked x ≤ 1 := by
  rw [h x]
  split <;> simp

theorem allLazy_of_kind_eq {c c1 : Container} (hk : c1.kind = c.kind) (h : allLazy c) :
    allLazy c1 := by
  intro name
  rw [hk]
  exact h name

theorem invokeDeps_spec (inv : ServiceId → Container → Option Nat × Container)
    (chain : List ServiceId)
    (hinv : ∀ name c, allLazy c → Consistent chain c →
      (inv name c).2.kind = c.kind ∧ (∀ x, (inv name c).2.invoked x ≤ 1) ∧
      (∀ x a, c.instances x = some a → (inv name c).2.instances x = some a) ∧
      (∀ a, (inv name c).1 = some a → Consistent chain (inv name c).2)) :
    ∀ deps c, allLazy c → Consistent chain c →
      (invokeDeps inv deps c).2.kind = c.kind ∧
      (∀ x, (invokeDeps inv deps c).2.invoked x ≤ 1) ∧
      (∀ x a, c.instances x = some a → (invokeDeps inv deps c).2.instances x = some a) ∧
      ((invokeDeps inv deps c).1 = true → Consistent chain (invokeDeps inv deps c).2) := by
  intro deps
  induction deps with
  | nil =>
    intro c _ hc
    exact ⟨rfl, consistent_invoked_le hc, fun _ _ h => h, fun _ => hc⟩
  | cons d ds ih =>
    intro c hl hc
    obtain ⟨hk, hle, hmono, hcons⟩ := hinv d c hl hc
    unfold invokeDeps
    cases hr : inv d c with
    | mk r c1 =>
      rw [hr] at hk hle hmono hcons
      cases r with
      | none => exact ⟨hk, hle, hmono, fun h => by cases h⟩
      | some a =>
        obtain ⟨hk2, hle2, hmono2, hcons2⟩ :=
          ih c1 (allLazy_of_kind_eq hk hl) (hcons a rfl)
        exact ⟨hk2.trans hk, hle2, fun x b h => hmono2 x b (hmono x b h), hcons2⟩

theorem invokeAux_spec (providers : ServiceId → Provider) (fuel : Nat) :
    ∀ chain name c, allLazy c → Consistent chain c →
      (invokeAux providers fuel chain name c).2.kind = c.kind ∧
      (∀ x, (invokeAux providers fuel chain name c).2.invoked x ≤ 1) ∧
      (∀ x a, c.instances x = some a →
        (invokeAux providers fuel chain name c).2.instances x = some a) ∧
      (∀ a, (invokeAux providers fuel chain name c).1 = some a →
        Consistent chain (invokeAux providers fuel chain name c).2 ∧
        (invokeAux providers fuel chain name c).2.instances name = some a) := by
  induction fuel with
  | zero =>
    intro chain name c _ hc
    exact ⟨rfl, consistent_invoked_le hc, fun _ _ h => h, fun a h => by cases h⟩
  | succ fuel ih =>
    intro chain name c hl hc
    unfold invokeAux
    simp only [hl name, if_true]
    by_cases hin : name ∈ chain
    · simp only [hin, if_true]
      exact ⟨trivial, consistent_invoked_le hc, fun _ _ h => h, fun a h => by cases h⟩
    · simp only [hin, if_false]
      cases hinst : c.instances name with
      | some inst =>
        simp only
        refine ⟨trivial, consistent_invoked_le hc, fun _ _ h => h, fun a h => ?_⟩
        cases h
        exact ⟨hc, hinst⟩
      | none =>
        simp only
        have hl1 : allLazy { c with invoked := setAt c.invoked name (c.invoked name + 1) } :=
          hl
        have hc1 : Consistent (name :: chain)
            { c with invoked := setAt c.invoked name (c.invoked name + 1) } := by
          intro x
          by_cases hx : x = name
          · subst hx
            have h0 := hc x
            simp only [hinst, Option.isSome_none, hin, or_self, if_false] at h0
            simp [setAt, h0]
          · have h0 := hc x
            simp only [setAt, hx, if_false, List.mem_cons, false_or]
            exact h0
        obtain ⟨hk, hle, hmono, hcons⟩ :=
          invokeDeps_spec (invokeAux providers fuel (name :: chain)) (name :: chain)
            (fun n c' hl' hc' => by
              obtain ⟨h1, h2, h3, h4⟩ := ih (name :: chain) n c' hl' hc'
              exact ⟨h1, h2, h3, fun a ha => (h4 a ha).1⟩)
            (providers name).deps _ hl1 hc1
        cases hr : invokeDeps (invokeAux providers fuel (name :: chain)) (providers name).deps
            { c with invoked := setAt c.invoked name (c.invoked name + 1) } with
        | mk ok c2 =>
          rw [hr] at hk hle hmono hcons
          cases ok with
          | false => exact ⟨hk, hle, hmono, fun a h => by cases h⟩
          | true =>
            have hc2 := hcons rfl
            simp only
            by_cases hok : (providers name).ok = true
            · simp only [hok, if_true]
              refine ⟨hk, hle, ?_, ?_⟩
              · intro x a hxa
                by_cases hx : x = name
                · subst hx
                  rw [hinst] at hxa
                  cases hxa
                · simp only [setAt, hx, if_false]
                  exact hmono x a hxa
              · intro a ha
                cases ha
                refine ⟨?_, by simp [setAt]⟩
                intro x
                have h2 := hc2 x
                by_cases hx : x = name
                · subst hx
                  simp only [List.mem_cons, true_or, or_true, if_true] at h2
                  simp [setAt, h2]
                · simp only [List.mem_cons, hx, false_or] at h2
                  simp only [setAt, hx, if_false]
                  exact h2
            · simp only [hok]
              exact ⟨hk, hle, hmono, fun a h => by cases h⟩

theorem invokeDeps_not_exhausted (inv : ServiceId → Container → Option Nat × Container)
    (hinv : ∀ name c, c.exhausted = false → (inv name c).2.exhausted = false) :
    ∀ deps c, c.exhausted = false → (invokeDeps inv deps c).2.exhausted = false := by
  intro deps
  induction deps with
  | nil => intro c h; exact h
  | cons d ds ih =>
    intro c h
    have h1 := hinv d c h
    unfold invokeDeps
    cases hr : inv d c with
    | mk r c1 =>
      rw [hr] at h1
      cases r with
      | none => exact h1
      | some a => exact ih c1 h1

theorem invokeAux_not_exhausted (providers : ServiceId → Provider) (fuel : Nat) :
    ∀ chain name c, chain.Nodup → 9 ≤ chain.length + fuel → c.exhausted = false →
      (invokeAux providers fuel chain name c).2.exhausted = false := by
  induction fuel with
  | zero =>
    intro chain name c hnd hlen _
    have hcard : chain.length ≤ Fintype.card ServiceId := List.Nodup.length_le_card hnd
    have h8 : Fintype.card ServiceId = 8 := rfl
    omega
  | succ fuel ih =>
    intro chain name c hnd hlen hex
    unfold invokeAux
    cases hkind : c.kind name with
    | none => exact hex
    | some kind =>
      simp only
      by_cases hin : name ∈ chain
      · simp only [hin, if_true]
        exact hex
      · simp only [hin, if_false]
        cases hinst : (if kind = ServiceKind.lazy then c.instances name else none) with
        | some inst => exact hex
        | none =>
          simp only
          have hd := invokeDeps_not_exhausted (invokeAux providers fuel (name :: chain))
            (fun n c' h' => ih (name :: chain) n c' (List.nodup_cons.2 ⟨hin, hnd⟩)
              (by simp only [List.length_cons]; omega) h')
            (providers name).deps
            { c with invoked := setAt c.invoked name (c.invoked name + 1) } hex
          cases hr : invokeDeps (invokeAux providers fuel (name :: chain))
              (providers name).deps
              { c with invoked := setAt c.invoked name (c.invoked name + 1) } with
          | mk ok c2 =>
            rw [hr] at hd
            cases ok with
            | false => exact hd
            | true =>
              simp only
              by_cases hok : (providers name).ok = true
              · simp only [hok, if_true]
                exact hd
              · simp only [hok]
                exact hd

theorem Invoke_cached (providers : ServiceId → Provider) (name : ServiceId) (c : Container)
    (a : Nat) (hl : allLazy c) (ha : c.instances name = some a) :
    Invoke providers name c = (some a, c) := by
  unfold Invoke invokeAux
  simp [hl name, ha]

theorem runMustInvoke_spec (providers : ServiceId → Provider) :
    ∀ names c, allLazy c → Consistent [] c → c.exhausted = false →
      (∀ x, (runMustInvoke providers names c).2.invoked x ≤ 1) ∧
      (runMustInvoke providers names c).2.exhausted = false ∧
      allLazy (runMustInvoke providers names c).2 ∧
      (∀ x a, c.instances x = some a →
        (runMustInvoke providers names c).2.instances x = some a) ∧
      (∀ name a, (name, a) ∈ (runMustInvoke providers names c).1 →
        (runMustInvoke providers names c).2.instances name = some a) := by
  intro names
  induction names with
  | nil =>
    intro c hl hc hex
    exact ⟨consistent_invoked_le hc, hex, hl, fun _ _ h => h, fun _ _ h => by cases h⟩
  | cons n ns ih =>
    intro c hl hc hex
    obtain ⟨hk, hle, hmono, hcons⟩ := invokeAux_spec providers 9 [] n c hl hc
    have hex1 := invokeAux_not_exhausted providers 9 [] n c List.nodup_nil (by simp) hex
    unfold runMustInvoke Invoke
    cases hr : invokeAux providers 9 [] n c with
    | mk r c1 =>
      rw [hr] at hk hle hmono hcons hex1
      cases r with
      | none =>
        exact ⟨hle, hex1, allLazy_of_kind_eq hk hl, hmono, fun _ _ h => by cases h⟩
      | some inst =>
        obtain ⟨hc1, hi1⟩ := hcons inst rfl
        obtain ⟨h1, h2, h3, h4, h5⟩ := ih c1 (allLazy_of_kind_eq hk hl) hc1 hex1
        refine ⟨h1, h2, h3, fun x a h => h4 x a (hmono x a h), ?_⟩
        intro name a hmem
        simp only [List.mem_cons, Prod.mk.injEq] at hmem
        rcases hmem with ⟨hn, ha⟩ | hmem
        · subst hn
          subst ha
          exact h4 _ _ hi1
        · exact h5 name a hmem

theorem New_packages :
    ∃ c0 : Container,
      New [BasePackage, http.Package, repositories.Package] = some c0 ∧
      allLazy c0 ∧ Consistent [] c0 ∧ c0.exhausted = false := by
  refine ⟨_, rfl, ?_, ?_, ?_⟩
  · intro name
    cases name <;> rfl
  · intro x
    rfl
  · rfl

/-- C11: the eight components (config, CLI, logger, HTTP server, user handler,
health handler, database, user repository) are each registered exactly once,
all lazily, and the container built from the three packages accepts them.
For any providers and any run of resolutions (`do.MustInvoke`, as everywhere in
the sources, where a failed resolution panics and ends the run): every
provider is invoked at most once; two resolutions of the same component return
the same instance; and resolving again, after the run, any component that the
run has resolved or that the container holds returns that same cached instance
and leaves the container untouched, so the provider is not invoked again. The
depth bound of the resolution is never used up. -/
theorem C11_lazy_components_are_singletons (providers : ServiceId → Provider)
    (names : List ServiceId) :
    (∀ r ∈ BasePackage ++ http.Package ++ repositories.Package, r.kind = ServiceKind.lazy) ∧
    (∀ name : ServiceId,
      ((BasePackage ++ http.Package ++ repositories.Package).filter
        (fun r => r.name = name)).length = 1) ∧
    ∃ c0 : Container,
      New [BasePackage, http.Package, repositories.Package] = some c0 ∧
      allLazy c0 ∧
      (∀ name, (runMustInvoke providers names c0).2.invoked name ≤ 1) ∧
      (∀ name a b, (name, a) ∈ (runMustInvoke providers names c0).1 →
        (name, b) ∈ (runMustInvoke providers names c0).1 → a = b) ∧
      (∀ name a, (name, a) ∈ (runMustInvoke providers names c0).1 →
        Invoke providers name (runMustInvoke providers names c0).2 =
          (some a, (runMustInvoke providers names c0).2)) ∧
      (∀ name a, (runMustInvoke providers names c0).2.instances name = some a →
        Invoke providers name (runMustInvoke providers names c0).2 =
          (some a, (runMustInvoke providers names c0).2)) ∧
      (runMustInvoke providers names c0).2.exhausted = false := by
  refine ⟨by decide, by decide, ?_⟩
  obtain ⟨c0, hnew, hlz, hcs, hex⟩ := New_packages
  refine ⟨c0, hnew, ?_⟩
  obtain ⟨h1, h2, h3, _, h5⟩ := runMustInvoke_spec providers names _ hlz hcs hex
  refine ⟨hlz, h1, ?_, ?_, ?_, h2⟩
  · intro name a b ha hb
    have := (h5 name a ha).symm.trans (h5 name b hb)
    exact Option.some.inj this
  · intro name a ha
    exact Invoke_cached providers name _ a h3 (h5 name a ha)
  · intro name a ha
    exact Invoke_cached providers name _ a h3 ha

/-- Witness for C11: with the providers of the sources (and a logger built from
the configuration, a database from configuration and logger, a repository from
database and logger), the run that resolves the CLI, the HTTP server, the
logger, the HTTP server again and the configuration gets the same HTTP server
both times, and no provider is invoked twice. -/
theorem C11_lazy_components_are_singletons_witness :
    ∃ c0 : Container,
      New [BasePackage, http.Package, repositories.Package] = some c0 ∧
      (runMustInvoke
        (sourceProviders true ⟨[.config], true⟩ ⟨[.config, .logger], true⟩
          ⟨[.database, .logger], true⟩)
        [.cli, .httpServer, .logger, .httpServer, .config] c0).1 =
        [(.cli, 1), (.httpServer, 7), (.logger, 2), (.httpServer, 7), (.config, 0)] ∧
      (∀ name, (runMustInvoke
        (sourceProviders true ⟨[.config], true⟩ ⟨[.config, .logger], true⟩
          ⟨[.database, .logger], true⟩)
        [.cli, .httpServer, .logger, .httpServer, .config] c0).2.invoked name ≤ 1) := by
  obtain ⟨c0, hnew, _, hinv, _⟩ :=
    (C11_lazy_components_are_singletons
      (sourceProviders true ⟨[.config], true⟩ ⟨[.config, .logger], true⟩
        ⟨[.database, .logger], true⟩)
      [.cli, .httpServer, .logger, .httpServer, .config]).2.2
  refine ⟨c0, hnew, ?_, hinv⟩
  have hc : some c0 = New [BasePackage, http.Package, repositories.Package] := hnew.symm
  have hc0 := Option.some.inj hc
  subst hc0
  rfl

end DoTemplateApi
